import Mathlib

/-!
Read benchmark operation of `sbmark` (`operation-read.go`).

A shallow embedding of `OperationRead.EnsureTestdata`, `OperationRead.Execute` and
`OperationRead.CleanupTestdata`, together with proofs of the properties the specification
states about them.

Modelling conventions:

* Everything outside the process (the storage client, the streams it hands out, the clock and
  the two logging sinks) is observed through a *transcript*: the list of events, oldest first,
  that the code has caused so far.  Each event records the call, its arguments and the answer
  that came back.
* The answers of the outside world are given by functions of the transcript so far.  Along one
  run every call happens at a different transcript, so quantifying over these functions
  quantifies over every possible sequence of answers, including answers that depend on
  earlier calls.
* A `Ticker` is an object with private state; its state is passed explicitly.
* A Go `panic` is modelled as an outcome (`Option String`, the panic text) returned together
  with the state reached at the moment of the panic.
* The `for` loop that drains a stream has no bound of its own, so its embedding takes a fuel
  argument and returns `none` when the fuel runs out.
* `uint64` payload sizes and `int` sample indices are `Nat` and `Int`; no arithmetic is done on
  a payload size, and the sample index is only incremented between `1` and `ctx.Samples`, which
  is assumed to be below the largest `int`.  Durations are `Int` nanoseconds.
* `make([]byte, payloadSize)` fails for lengths the runtime cannot allocate; whether it does,
  and with which runtime error, is a parameter of the environment.  A failed allocation ends
  the call on the spot, like any other panic.
-/

namespace sbmark

/-! ## Data model -/

/-- A Go `error` value: either the sentinel `io.EOF` or any other error, given by its text. -/
inductive GoError where
  | EOF : GoError
  | other (text : String) : GoError
  deriving DecidableEq, Repr

/-- The method `Error()` of a Go error. -/
def GoError.Error : GoError → String
  | GoError.EOF => "EOF"
  | GoError.other text => text

/-- Go `time.Duration`. -/
abbrev Duration := Int

/-- Modelled from the spec: the `Latency` record (declared outside `operation-read.go`), with
the first-byte duration, the last-byte duration and the ordered list of errors. -/
structure Latency where
  FirstByte : Duration
  LastByte : Duration
  Errors : List GoError
  deriving DecidableEq, Repr

/-- A handle for the `io.ReadCloser` returned by `GetObject`. -/
abbrev Stream := Nat

/-- One observable interaction with the outside world, with the answer it received. -/
inductive Event where
  | clock (t : Int) : Event
  | HeadObject (path key : String) (err : Option GoError) : Event
  | PutObject (path key : String) (size : Nat) (err : Option GoError) : Event
  | GetObject (path key : String) (latency : Latency) (dataStream : Stream)
      (err : Option GoError) : Event
  | DeleteObject (path key : String) (err : Option GoError) : Event
  | Read (dataStream : Stream) (bufLen : Nat) (n : Int) (err : Option GoError) : Event
  | Close (dataStream : Stream) (err : Option GoError) : Event
  | ErrorLogger (msg : String) : Event
  | WarningLogger (msg : String) : Event
  deriving DecidableEq, Repr

/-- The transcript of a run, oldest event first. -/
abbrev Trace := List Event

/-- Modelled from the spec: the storage client capability behind `ctx.Client` (its interface
is declared outside `operation-read.go`) and the streams it hands out.  Every answer is a
function of the transcript so far and of the arguments of the call.  Only the `error` result
of `HeadObject`, `PutObject` and `DeleteObject` is modelled: the code discards the rest. -/
structure StorageClient where
  HeadObject : Trace → String → String → Option GoError
  PutObject : Trace → String → String → Nat → Option GoError
  GetObject : Trace → String → String → Latency × Stream × Option GoError
  DeleteObject : Trace → String → String → Option GoError
  Read : Trace → Stream → Nat → Int × Option GoError
  Close : Trace → Stream → Option GoError

/-- Modelled from the spec: the run context `BenchmarkContext` (declared outside
`operation-read.go`), with the fields the code reads.  The two loggers are sinks and appear
as events of the transcript. -/
structure BenchmarkContext where
  Client : StorageClient
  Path : String
  Samples : Int

/-- Package-level and runtime functions that `operation-read.go` calls but does not define:
the key generator, `ByteFormat` (applied to the payload size), the monotonic clock behind
`time.Now` and `time.Since`, and the allocator behind `make([]byte, n)`:
`makeSliceError n` is `none` when a slice of `n` bytes is allocated and the text of the
runtime error otherwise. -/
structure Env where
  generateObjectKey : Int → Nat → String
  ByteFormat : Nat → String
  clock : Trace → Int
  makeSliceError : Nat → Option String

/-- Modelled from the spec: the progress-signal capability `Ticker` (declared outside
`operation-read.go`): an object with state `τ` and a method `Add(n)`. -/
structure Ticker (τ : Type) where
  Add : τ → Int → τ

/-- Modelled from the spec: `NilTicker`, the no-op progress signal used on the fatal path. -/
def NilTicker : Ticker Unit where
  Add := fun _ _ => ()

/-- The struct `OperationRead`. -/
structure OperationRead where
  keys : List String
  errKeys : List String
  deriving DecidableEq, Repr

/-- Modelled from the spec: the helper `contains` (declared outside `operation-read.go`), which
tells whether a key is present in a slice of keys. -/
def contains : List String → String → Bool
  | [], _ => false
  | a :: rest, e => if a = e then true else contains rest e

/-- Go `strings.Contains`: `substr` occurs in `s`. -/
def stringsContains (s substr : String) : Bool :=
  s.toList.tails.any (fun t => substr.toList.isPrefixOf t)

/-! ## `CleanupTestdata` -/

/-- The body of `for _, key := range op.keys` in `CleanupTestdata`, over the keys that remain. -/
def CleanupTestdata.loop {τ : Type} (ctx : BenchmarkContext) (ticker : Ticker τ) :
    List String → OperationRead → τ → Trace → OperationRead × τ × Trace
  | [], op, t, w => (op, t, w)
  | key :: rest, op, t, w =>
    let t := ticker.Add t 1
    if contains op.errKeys key then
      CleanupTestdata.loop ctx ticker rest op t w
    else
      let err := ctx.Client.DeleteObject w ctx.Path key
      CleanupTestdata.loop ctx ticker rest op t (w ++ [Event.DeleteObject ctx.Path key err])

/-- The method `OperationRead.CleanupTestdata`. -/
def CleanupTestdata {τ : Type} (ctx : BenchmarkContext) (ticker : Ticker τ)
    (op : OperationRead) (t : τ) (w : Trace) : OperationRead × τ × Trace :=
  CleanupTestdata.loop ctx ticker op.keys op t w

/-! ## `EnsureTestdata` -/

/-- The sample indices visited by `for sampleId := 1; sampleId <= samples; sampleId++`. -/
def sampleIds (samples : Int) : List Int :=
  (List.range samples.toNat).map (fun (i : Nat) => (i : Int) + 1)

/-- The body of the `for` loop of `EnsureTestdata`, over the sample indices that remain.  The
first component of the result is the panic text, if the loop panicked: one of the two
explicit panics, or the runtime error of `make([]byte, payloadSize)`, which is raised before
the write and outside any cleanup. -/
def EnsureTestdata.loop {τ : Type} (env : Env) (ctx : BenchmarkContext) (payloadSize : Nat)
    (ticker : Ticker τ) :
    List Int → OperationRead → τ → Trace → Option String × OperationRead × τ × Trace
  | [], op, t, w => (none, op, t, w)
  | sampleId :: rest, op, t, w =>
    let t := ticker.Add t 1
    let key := env.generateObjectKey sampleId payloadSize
    let err := ctx.Client.HeadObject w ctx.Path key
    let w := w ++ [Event.HeadObject ctx.Path key err]
    match err with
    | none => EnsureTestdata.loop env ctx payloadSize ticker rest op t w
    | some e =>
      if !stringsContains e.Error "NotFound:" then
        let c := CleanupTestdata ctx NilTicker op () w
        (some ("Failed to head object: " ++ e.Error), c.1, t, c.2.2)
      else
        match env.makeSliceError payloadSize with
        | some msg => (some msg, op, t, w)
        | none =>
          let err := ctx.Client.PutObject w ctx.Path key payloadSize
          let w := w ++ [Event.PutObject ctx.Path key payloadSize err]
          let op := { op with keys := op.keys ++ [key] }
          match err with
          | some e =>
            let c := CleanupTestdata ctx NilTicker op () w
            (some ("Failed to put object: " ++ e.Error), c.1, t, c.2.2)
          | none => EnsureTestdata.loop env ctx payloadSize ticker rest op t w

/-- The method `OperationRead.EnsureTestdata`. -/
def EnsureTestdata {τ : Type} (env : Env) (ctx : BenchmarkContext) (payloadSize : Nat)
    (ticker : Ticker τ) (op : OperationRead) (t : τ) (w : Trace) :
    Option String × OperationRead × τ × Trace :=
  EnsureTestdata.loop env ctx payloadSize ticker (sampleIds ctx.Samples) op t w

/-! ## `Execute` -/

/-- The text logged when the request fails. -/
def getFailedMsg (key : String) (e : GoError) : String :=
  "Failed to get object " ++ key ++ ": " ++ e.Error

/-- The text logged when a read fails. -/
def readFailedMsg (env : Env) (key : String) (payloadSize : Nat) (sampleId : Int)
    (e : GoError) : String :=
  "Error reading object body of object " ++ key ++ " (payload: " ++ env.ByteFormat payloadSize
    ++ ", sample: " ++ toString sampleId ++ "): " ++ e.Error

/-- The text logged when closing the stream fails. -/
def closeFailedMsg (key : String) (e : GoError) : String :=
  "Error closing the datastream of object " ++ key ++ ": " ++ e.Error

/-- The drain loop `for { n, err := dataStream.Read(buf); ... }` of `Execute`.  The buffer has
`payloadSize` bytes.  Returns `none` when the fuel runs out before the loop breaks. -/
def Execute.readLoop (env : Env) (ctx : BenchmarkContext) (dataStream : Stream) (key : String)
    (sampleId : Int) (payloadSize : Nat) :
    Nat → Int → OperationRead → Latency → Trace → Option (OperationRead × Latency × Trace)
  | 0, _, _, _, _ => none
  | fuel + 1, size, op, latency, w =>
    let r := ctx.Client.Read w dataStream payloadSize
    let w := w ++ [Event.Read dataStream payloadSize r.1 r.2]
    let size := size + r.1
    match r.2 with
    | none => Execute.readLoop env ctx dataStream key sampleId payloadSize fuel size op latency w
    | some GoError.EOF => some (op, latency, w)
    | some (GoError.other text) =>
      let w := w ++ [Event.WarningLogger
        (readFailedMsg env key payloadSize sampleId (GoError.other text))]
      let op := { op with errKeys := op.errKeys ++ [key] }
      let latency := { latency with Errors := latency.Errors ++ [GoError.other text] }
      some (op, latency, w)

/-- The method `OperationRead.Execute`.  `fuel` bounds the number of reads of the drain loop;
the result is `none` when the fuel runs out.  The first component of a result is the panic
text when the call panicked (the allocation of the read buffer failed), and then the other
components are the state reached at that moment; it is `none` when the call returned the
`Latency`. -/
def Execute (env : Env) (ctx : BenchmarkContext) (fuel : Nat) (op : OperationRead)
    (sampleId : Int) (payloadSize : Nat) (w : Trace) :
    Option (Option String × Latency × OperationRead × Trace) :=
  let key := env.generateObjectKey sampleId payloadSize
  let latencyTimer := env.clock w
  let w := w ++ [Event.clock latencyTimer]
  let r := ctx.Client.GetObject w ctx.Path key
  let latency := r.1
  let dataStream := r.2.1
  let w := w ++ [Event.GetObject ctx.Path key latency dataStream r.2.2]
  match r.2.2 with
  | some e =>
    let w := w ++ [Event.ErrorLogger (getFailedMsg key e)]
    let op := { op with errKeys := op.errKeys ++ [key] }
    let latency := { latency with Errors := latency.Errors ++ [e] }
    some (none, latency, op, w)
  | none =>
    let now := env.clock w
    let w := w ++ [Event.clock now]
    let latency := { latency with FirstByte := now - latencyTimer }
    match env.makeSliceError payloadSize with
    | some msg => some (some msg, latency, op, w)
    | none =>
      match Execute.readLoop env ctx dataStream key sampleId payloadSize fuel 0 op latency w with
      | none => none
      | some (op, latency, w) =>
        let err := ctx.Client.Close w dataStream
        let w := w ++ [Event.Close dataStream err]
        let now := env.clock w
        let w := w ++ [Event.clock now]
        let latency := { latency with LastByte := now - latencyTimer }
        match err with
        | some e =>
          let w := w ++ [Event.ErrorLogger (closeFailedMsg key e)]
          let op := { op with errKeys := op.errKeys ++ [key] }
          let latency := { latency with Errors := latency.Errors ++ [e] }
          some (none, latency, op, w)
        | none => some (none, latency, op, w)

/-- One finished `Execute` call of a sequential run: the sample index, the events the call
caused and the `Latency` it returned. -/
structure ExecRun where
  sampleId : Int
  events : Trace
  latency : Latency
  deriving DecidableEq, Repr

/-- A sequential run of `Execute`, one call per listed sample index, in the listed order.  The
result is `none` when one of the calls does not return a `Latency` (its drain loop runs out
of fuel, or it panics). -/
def ExecuteAll (env : Env) (ctx : BenchmarkContext) (fuel : Nat) (payloadSize : Nat) :
    List Int → OperationRead → Trace → Option (List ExecRun × OperationRead × Trace)
  | [], op, w => some ([], op, w)
  | sampleId :: rest, op, w =>
    match Execute env ctx fuel op sampleId payloadSize w with
    | none => none
    | some (some _, _, _, _) => none
    | some (none, latency, op1, w1) =>
      match ExecuteAll env ctx fuel payloadSize rest op1 w1 with
      | none => none
      | some (runs, op2, w2) =>
        some (ExecRun.mk sampleId (w1.drop w.length) latency :: runs, op2, w2)

/-- The `Read` events of the first `j` iterations of a drain loop that never breaks, started at
transcript `w`. -/
def drainEvents (ctx : BenchmarkContext) (dataStream : Stream) (bufLen : Nat) :
    Nat → Trace → List Event
  | 0, _ => []
  | j + 1, w =>
    let r := ctx.Client.Read w dataStream bufLen
    Event.Read dataStream bufLen r.1 r.2
      :: drainEvents ctx dataStream bufLen j (w ++ [Event.Read dataStream bufLen r.1 r.2])

/-- The answer to read number `j` (counted from `0`) of a drain loop started at `w`, when no
earlier read broke the loop. -/
def nthRead (ctx : BenchmarkContext) (dataStream : Stream) (bufLen : Nat) (w : Trace)
    (j : Nat) : Int × Option GoError :=
  ctx.Client.Read (w ++ drainEvents ctx dataStream bufLen j w) dataStream bufLen

/-! ## Reading the transcript -/

/-- The keys passed to `DeleteObject`, in call order. -/
def deletedKeys : Trace → List String
  | [] => []
  | Event.DeleteObject _ key _ :: rest => key :: deletedKeys rest
  | _ :: rest => deletedKeys rest

/-- The event is a `DeleteObject` call on the given path. -/
def isDeleteOn (path : String) : Event → Bool
  | Event.DeleteObject p _ _ => p = path
  | _ => false

/-- The event is a `Read` on a stream. -/
def isRead : Event → Bool
  | Event.Read _ _ _ _ => true
  | _ => false

/-- The event is a `Close` of a stream. -/
def isClose : Event → Bool
  | Event.Close _ _ => true
  | _ => false

/-- The messages written to the error-level sink, in order. -/
def errorLogs : Trace → List String
  | [] => []
  | Event.ErrorLogger msg :: rest => msg :: errorLogs rest
  | _ :: rest => errorLogs rest

/-- The messages written to the warning-level sink, in order. -/
def warningLogs : Trace → List String
  | [] => []
  | Event.WarningLogger msg :: rest => msg :: warningLogs rest
  | _ :: rest => warningLogs rest

/-- The error a `Read` answer contributes to the `Latency`: none for `nil` and `io.EOF`. -/
def readError : Option GoError → List GoError
  | some (GoError.other text) => [GoError.other text]
  | _ => []

/-- The errors of the failures recorded in a transcript, in order: failed requests, reads that
failed before end-of-stream, and failed closes. -/
def failureErrors : Trace → List GoError
  | [] => []
  | Event.GetObject _ _ _ _ (some e) :: rest => e :: failureErrors rest
  | Event.Read _ _ _ (some (GoError.other text)) :: rest =>
    GoError.other text :: failureErrors rest
  | Event.Close _ (some e) :: rest => e :: failureErrors rest
  | _ :: rest => failureErrors rest

/-- The transcript of `Execute` up to and including the answer to the `GetObject` request. -/
def afterRequest (env : Env) (ctx : BenchmarkContext) (sampleId : Int) (payloadSize : Nat)
    (w : Trace) : Trace :=
  let key := env.generateObjectKey sampleId payloadSize
  let r := ctx.Client.GetObject (w ++ [Event.clock (env.clock w)]) ctx.Path key
  w ++ [Event.clock (env.clock w), Event.GetObject ctx.Path key r.1 r.2.1 r.2.2]

/-- The transcript of `Execute` at the start of the drain loop, when the request succeeded:
the first-byte clock reading has just been taken. -/
def drainStart (env : Env) (ctx : BenchmarkContext) (sampleId : Int) (payloadSize : Nat)
    (w : Trace) : Trace :=
  afterRequest env ctx sampleId payloadSize w
    ++ [Event.clock (env.clock (afterRequest env ctx sampleId payloadSize w))]

/-- What `Execute` logs for the read that ended the drain loop. -/
def drainLog (env : Env) (key : String) (payloadSize : Nat) (sampleId : Int) :
    Option GoError → List Event
  | some (GoError.other text) =>
    [Event.WarningLogger (readFailedMsg env key payloadSize sampleId (GoError.other text))]
  | _ => []

/-- What `Execute` logs for the answer of `Close`. -/
def closeLog (key : String) : Option GoError → List Event
  | some e => [Event.ErrorLogger (closeFailedMsg key e)]
  | none => []

/-- The keys passed to `PutObject`, in call order. -/
def putKeys : Trace → List String
  | [] => []
  | Event.PutObject _ key _ _ :: rest => key :: putKeys rest
  | _ :: rest => putKeys rest

/-- The events of one iteration of the provisioning loop that does not abort, for a sample
index and the answer of its existence check: the `HeadObject` call and, when it answered an
error, one successful `PutObject` of `payloadSize` bytes under the same key. -/
def provisionEvents (env : Env) (ctx : BenchmarkContext) (payloadSize : Nat)
    (p : Int × Option GoError) : List Event :=
  match p.2 with
  | none => [Event.HeadObject ctx.Path (env.generateObjectKey p.1 payloadSize) none]
  | some e =>
    [Event.HeadObject ctx.Path (env.generateObjectKey p.1 payloadSize) (some e),
     Event.PutObject ctx.Path (env.generateObjectKey p.1 payloadSize) payloadSize none]

/-- An answer of the existence check that lets provisioning go on: the object exists, or the
error is a not-found report. -/
def existsOrNotFound : Option GoError → Bool
  | none => true
  | some e => stringsContains e.Error "NotFound:"

/-- The keys that the listed `Execute` calls appended to `errKeys`: the key of the sample,
once per failure recorded among the events of the call. -/
def runErrKeys (env : Env) (payloadSize : Nat) : List ExecRun → List String
  | [] => []
  | r :: rest =>
    (failureErrors r.events).map (fun _ => env.generateObjectKey r.sampleId payloadSize)
      ++ runErrKeys env payloadSize rest

/-- The sample indices of the listed `Execute` calls that met a failure. -/
def failedIds (runs : List ExecRun) : List Int :=
  (runs.filter (fun r => !(failureErrors r.events).isEmpty)).map ExecRun.sampleId

/-! ## Concrete environments

Small clients on which the definitions can be evaluated. -/

/-- A key generator with three distinct keys, a byte formatter, a clock that advances by one
tick per event, and an allocator that refuses slices of more than `2 ^ 48` bytes. -/
def demoEnv : Env where
  generateObjectKey := fun sampleId _ =>
    if sampleId = 1 then "obj-1" else if sampleId = 2 then "obj-2" else "obj-3"
  ByteFormat := fun _ => "1 KB"
  clock := fun w => w.length
  makeSliceError := fun n =>
    if n ≤ 2 ^ 48 then none else some "runtime error: makeslice: len out of range"

/-- A client that answers every call with success and whose streams are empty. -/
def okClient : StorageClient where
  HeadObject := fun _ _ _ => none
  PutObject := fun _ _ _ _ => none
  GetObject := fun _ _ _ => (Latency.mk 0 0 [], 7, none)
  DeleteObject := fun _ _ _ => none
  Read := fun _ _ _ => (0, some GoError.EOF)
  Close := fun _ _ => none

/-- A client whose `GetObject` request always fails. -/
def requestFailsClient : StorageClient :=
  { okClient with
    GetObject := fun _ _ _ => (Latency.mk 0 0 [], 0, some (GoError.other "timeout")) }

/-- A client whose streams deliver two chunks and then end-of-stream (the reads of a call
started on the empty transcript happen at transcript lengths 3, 4 and 5). -/
def twoChunksClient : StorageClient :=
  { okClient with
    Read := fun w _ _ => if w.length < 5 then (512, none) else (0, some GoError.EOF) }

/-- A client whose streams deliver one chunk and then fail, and whose `Close` fails too. -/
def brokenStreamClient : StorageClient :=
  { okClient with
    Read := fun w _ _ => if w.length < 4 then (512, none) else (3, some (GoError.other "reset"))
    Close := fun _ _ => some (GoError.other "already closed") }

/-- A client like `twoChunksClient` whose `GetObject` succeeds and returns a `Latency` that
already carries an error. -/
def staleLatencyClient : StorageClient :=
  { twoChunksClient with
    GetObject := fun _ _ _ => (Latency.mk 0 0 [GoError.other "stale"], 7, none) }

/-- A client for which the object of sample 2 already exists and every other object is
reported as not found. -/
def secondExistsClient : StorageClient :=
  { okClient with
    HeadObject := fun _ _ key =>
      if key = "obj-2" then none else some (GoError.other "NotFound: no such key") }

/-- A client for which no object exists and the write of the object of sample 2 fails. -/
def putFailsClient : StorageClient :=
  { okClient with
    HeadObject := fun _ _ _ => some (GoError.other "NotFound: no such key")
    PutObject := fun _ _ key _ =>
      if key = "obj-2" then some (GoError.other "quota exceeded") else none }

/-- A client for which the object of sample 1 is not found and the existence check of every
other object is refused. -/
def headFailsClient : StorageClient :=
  { okClient with
    HeadObject := fun _ _ key =>
      if key = "obj-1" then some (GoError.other "NotFound: no such key")
      else some (GoError.other "AccessDenied: forbidden") }

/-- A client for which no object exists yet, every write succeeds, the request for the object
of sample 2 fails and every other stream is empty. -/
def secondGetFailsClient : StorageClient :=
  { okClient with
    HeadObject := fun _ _ _ => some (GoError.other "NotFound: no such key")
    GetObject := fun _ _ key =>
      if key = "obj-2" then (Latency.mk 0 0 [], 0, some (GoError.other "timeout"))
      else (Latency.mk 0 0 [], 7, none) }

/-- A context around a client, with bucket `"bucket"`. -/
def demoCtx (client : StorageClient) (samples : Int) : BenchmarkContext where
  Client := client
  Path := "bucket"
  Samples := samples

/-! ## Lemmas -/

theorem contains_eq_true_iff (s : List String) (e : String) :
    contains s e = true ↔ e ∈ s := by
  induction s with
  | nil => simp [contains]
  | cons a rest ih =>
    by_cases h : a = e
    · simp [contains, h]
    · have h2 : ¬ e = a := fun h3 => h h3.symm
      simp [contains, h, h2, ih]

theorem iterate_add_one (m : Nat) (c : Int) : (fun s : Int => s + 1)^[m] c = c + m := by
  induction m generalizing c with
  | zero => simp
  | succ m ih =>
    rw [Function.iterate_succ_apply, ih]
    push_cast
    ring

theorem deletedKeys_append (a b : Trace) :
    deletedKeys (a ++ b) = deletedKeys a ++ deletedKeys b := by
  induction a with
  | nil => rfl
  | cons e rest ih => cases e <;> simp [deletedKeys, ih]

/-- What the cleanup loop does, for any list of remaining keys. -/
theorem cleanupLoop_spec {τ : Type} (ctx : BenchmarkContext) (ticker : Ticker τ)
    (ks : List String) (op : OperationRead) (t : τ) (w : Trace) :
    ∃ d : Trace,
      CleanupTestdata.loop ctx ticker ks op t w
        = (op, (fun s => ticker.Add s 1)^[ks.length] t, w ++ d) ∧
      deletedKeys d = ks.filter (fun k => !contains op.errKeys k) ∧
      d.length = (ks.filter (fun k => !contains op.errKeys k)).length ∧
      ∀ e ∈ d, isDeleteOn ctx.Path e = true := by
  induction ks generalizing t w with
  | nil => exact ⟨[], by simp [CleanupTestdata.loop, deletedKeys]⟩
  | cons key rest ih =>
    by_cases h : contains op.errKeys key = true
    · obtain ⟨d, h1, h2, h3, h4⟩ := ih (ticker.Add t 1) w
      exact ⟨d, by simp [CleanupTestdata.loop, h, h1], by simp [h, h2], by simp [h, h3], h4⟩
    · obtain ⟨d, h1, h2, h3, h4⟩ := ih (ticker.Add t 1)
        (w ++ [Event.DeleteObject ctx.Path key (ctx.Client.DeleteObject w ctx.Path key)])
      refine ⟨Event.DeleteObject ctx.Path key (ctx.Client.DeleteObject w ctx.Path key) :: d,
        by simp [CleanupTestdata.loop, h, h1], by simp [h, h2, deletedKeys],
        by simp [h, h3], ?_⟩
      intro e he
      rcases List.mem_cons.mp he with rfl | he
      · simp [isDeleteOn]
      · exact h4 e he

/-! ### The drain loop -/

theorem nthRead_succ (ctx : BenchmarkContext) (s : Stream) (b : Nat) (w : Trace) (j : Nat) :
    nthRead ctx s b w (j + 1)
      = nthRead ctx s b
          (w ++ [Event.Read s b (ctx.Client.Read w s b).1 (ctx.Client.Read w s b).2]) j := by
  simp [nthRead, drainEvents]

theorem drainEvents_length (ctx : BenchmarkContext) (s : Stream) (b : Nat) (j : Nat)
    (w : Trace) : (drainEvents ctx s b j w).length = j := by
  induction j generalizing w with
  | zero => rfl
  | succ j ih => simp [drainEvents, ih]

theorem drainEvents_isRead (ctx : BenchmarkContext) (s : Stream) (b : Nat) (j : Nat)
    (w : Trace) : ∀ e ∈ drainEvents ctx s b j w, isRead e = true := by
  induction j generalizing w with
  | zero => simp [drainEvents]
  | succ j ih =>
    intro e he
    simp only [drainEvents, List.mem_cons] at he
    rcases he with rfl | he
    · rfl
    · exact ih _ e he

theorem drainEvents_succ_last (ctx : BenchmarkContext) (s : Stream) (b : Nat) (j : Nat)
    (v : Trace) :
    drainEvents ctx s b (j + 1) v
      = drainEvents ctx s b j v
        ++ [Event.Read s b (nthRead ctx s b v j).1 (nthRead ctx s b v j).2] := by
  induction j generalizing v with
  | zero => simp [drainEvents, nthRead]
  | succ j ih =>
    rw [drainEvents, ih]
    simp [drainEvents, nthRead]

/-- While the reads answer without error the drain loop keeps going. -/
theorem readLoop_skip (env : Env) (ctx : BenchmarkContext) (s : Stream) (key : String)
    (sampleId : Int) (payloadSize : Nat) (op : OperationRead) (latency : Latency)
    (k : Nat) (w : Trace) (hok : ∀ j < k, (nthRead ctx s payloadSize w j).2 = none)
    (fuel : Nat) (size : Int) :
    ∃ size2 : Int,
      Execute.readLoop env ctx s key sampleId payloadSize (k + fuel) size op latency w
        = Execute.readLoop env ctx s key sampleId payloadSize fuel size2 op latency
            (w ++ drainEvents ctx s payloadSize k w) := by
  induction k generalizing w size with
  | zero => exact ⟨size, by simp [drainEvents]⟩
  | succ k ih =>
    have h0 : (ctx.Client.Read w s payloadSize).2 = none := by
      have := hok 0 (Nat.succ_pos k)
      simpa [nthRead, drainEvents] using this
    have hrest : ∀ j < k, (nthRead ctx s payloadSize
        (w ++ [Event.Read s payloadSize (ctx.Client.Read w s payloadSize).1
          (ctx.Client.Read w s payloadSize).2]) j).2 = none := by
      intro j hj
      rw [← nthRead_succ]
      exact hok (j + 1) (Nat.succ_lt_succ hj)
    obtain ⟨size2, h⟩ := ih _ hrest (size + (ctx.Client.Read w s payloadSize).1)
    refine ⟨size2, ?_⟩
    rw [Nat.succ_add, Execute.readLoop]
    simp only [h0]
    rw [h0] at h
    rw [h]
    simp [drainEvents, h0]

/-- The drain loop stops at the first read that answers end-of-stream or an error. -/
theorem readLoop_spec (env : Env) (ctx : BenchmarkContext) (s : Stream) (key : String)
    (sampleId : Int) (payloadSize : Nat) (op : OperationRead) (latency : Latency)
    (k : Nat) (w : Trace) (hok : ∀ j < k, (nthRead ctx s payloadSize w j).2 = none)
    (e : GoError) (hend : (nthRead ctx s payloadSize w k).2 = some e)
    (fuel : Nat) (hfuel : k < fuel) (size : Int) :
    Execute.readLoop env ctx s key sampleId payloadSize fuel size op latency w
      = some ({ keys := op.keys, errKeys := op.errKeys ++ (readError (some e)).map (fun _ => key) },
          { latency with Errors := latency.Errors ++ readError (some e) },
          w ++ drainEvents ctx s payloadSize (k + 1) w
            ++ drainLog env key payloadSize sampleId (some e)) := by
  obtain ⟨f, rfl⟩ : ∃ f, fuel = k + (f + 1) := ⟨fuel - k - 1, by omega⟩
  obtain ⟨size2, h⟩ := readLoop_skip env ctx s key sampleId payloadSize op latency k w
    hok (f + 1) size
  rw [h, Execute.readLoop]
  have hk : (ctx.Client.Read (w ++ drainEvents ctx s payloadSize k w) s payloadSize).2
      = some e := hend
  have hn : nthRead ctx s payloadSize w k
      = ctx.Client.Read (w ++ drainEvents ctx s payloadSize k w) s payloadSize := rfl
  rw [drainEvents_succ_last ctx s payloadSize k w]
  cases e with
  | EOF => simp [hk, hn, readError, drainLog]
  | other text => simp [hk, hn, readError, drainLog]

/-! ## Claims about `CleanupTestdata` -/

/-- C1: for every operation state and every storage client, the keys that `CleanupTestdata`
passes to `DeleteObject` are `op.keys` with the elements of `op.errKeys` removed, in order and
once per occurrence; no key of `op.errKeys` is deleted; the calls made are exactly these
deletes, whatever each `DeleteObject` answers (a failing delete does not stop the loop). -/
theorem cleanup_deletes_keys_not_in_errKeys {τ : Type} (ctx : BenchmarkContext)
    (ticker : Ticker τ) (op : OperationRead) (t : τ) (w : Trace) :
    ∃ d : Trace,
      (CleanupTestdata ctx ticker op t w).2.2 = w ++ d ∧
      deletedKeys d = op.keys.filter (fun k => decide (k ∉ op.errKeys)) ∧
      d.length = (op.keys.filter (fun k => decide (k ∉ op.errKeys))).length ∧
      (∀ e ∈ d, isDeleteOn ctx.Path e = true) ∧
      (∀ k ∈ op.errKeys, k ∉ deletedKeys d) := by
  obtain ⟨d, h1, h2, h3, h4⟩ := cleanupLoop_spec ctx ticker op.keys op t w
  have hf : op.keys.filter (fun k => !contains op.errKeys k)
      = op.keys.filter (fun k => decide (k ∉ op.errKeys)) := by
    apply List.filter_congr
    intro k _
    by_cases hk : k ∈ op.errKeys
    · simp [hk, (contains_eq_true_iff op.errKeys k).mpr hk]
    · have : contains op.errKeys k = false := by
        cases hc : contains op.errKeys k
        · rfl
        · exact absurd ((contains_eq_true_iff _ _).mp hc) hk
      simp [hk, this]
  refine ⟨d, by simp [CleanupTestdata, h1], by rw [h2, hf], by rw [h3, hf], h4, ?_⟩
  intro k hk hmem
  rw [h2, hf] at hmem
  simp [List.mem_filter] at hmem
  exact hmem.2 hk

/-- C3: `CleanupTestdata` calls `Add(1)` on the progress signal it is given exactly
`len(op.keys)` times, whatever `op.errKeys` holds and whatever the deletes answer; for a
counter that adds up its arguments the count grows by `len(op.keys)`. -/
theorem cleanup_ticks_once_per_key {τ : Type} (ctx : BenchmarkContext)
    (ticker : Ticker τ) (op : OperationRead) (t : τ) (w : Trace) :
    (CleanupTestdata ctx ticker op t w).2.1 = (fun s => ticker.Add s 1)^[op.keys.length] t ∧
    ∀ c : Int, (CleanupTestdata ctx (Ticker.mk (fun s n => s + n)) op c w).2.1
      = c + op.keys.length := by
  constructor
  · obtain ⟨d, h1, _⟩ := cleanupLoop_spec ctx ticker op.keys op t w
    simp [CleanupTestdata, h1]
  · intro c
    obtain ⟨d, h1, _⟩ := cleanupLoop_spec ctx (Ticker.mk (fun (s n : Int) => s + n))
      op.keys op c w
    simp only [CleanupTestdata, h1]
    exact iterate_add_one op.keys.length c

/-! ### The provisioning loop -/

theorem putKeys_append (a b : Trace) : putKeys (a ++ b) = putKeys a ++ putKeys b := by
  induction a with
  | nil => rfl
  | cons e rest ih => cases e <;> simp [putKeys, ih]

theorem putKeys_of_deletes (path : String) (d : Trace)
    (h : ∀ e ∈ d, isDeleteOn path e = true) : putKeys d = [] := by
  induction d with
  | nil => rfl
  | cons e rest ih =>
    have he := h e (List.mem_cons_self _ _)
    have hr := ih (fun x hx => h x (List.mem_cons_of_mem _ hx))
    cases e <;> simp_all [putKeys, isDeleteOn]

theorem cleanupTestdata_spec {τ : Type} (ctx : BenchmarkContext) (ticker : Ticker τ)
    (op : OperationRead) (t : τ) (w : Trace) :
    ∃ d : Trace,
      CleanupTestdata ctx ticker op t w
        = (op, (fun s => ticker.Add s 1)^[op.keys.length] t, w ++ d) ∧
      deletedKeys d = op.keys.filter (fun k => !contains op.errKeys k) ∧
      (∀ e ∈ d, isDeleteOn ctx.Path e = true) := by
  obtain ⟨d, h1, h2, _, h4⟩ := cleanupLoop_spec ctx ticker op.keys op t w
  exact ⟨d, h1, h2, h4⟩

/-- Whatever the outcome, the provisioning loop only appends to `keys`, leaves `errKeys` alone
and only extends the transcript. -/
theorem ensureLoop_frame {τ : Type} (env : Env) (ctx : BenchmarkContext)
    (payloadSize : Nat) (ticker : Ticker τ) (ids : List Int) (op : OperationRead) (t : τ)
    (w : Trace) :
    ∃ (added : List String) (d : Trace),
      (EnsureTestdata.loop env ctx payloadSize ticker ids op t w).2.1
        = { keys := op.keys ++ added, errKeys := op.errKeys } ∧
      (EnsureTestdata.loop env ctx payloadSize ticker ids op t w).2.2.2 = w ++ d := by
  induction ids generalizing op t w with
  | nil => exact ⟨[], [], by simp [EnsureTestdata.loop], by simp [EnsureTestdata.loop]⟩
  | cons sampleId rest ih =>
    rw [EnsureTestdata.loop]
    cases hh : ctx.Client.HeadObject w ctx.Path (env.generateObjectKey sampleId payloadSize) with
    | none =>
      obtain ⟨added, d, h1, h2⟩ := ih op (ticker.Add t 1)
        (w ++ [Event.HeadObject ctx.Path (env.generateObjectKey sampleId payloadSize) none])
      exact ⟨added, Event.HeadObject ctx.Path (env.generateObjectKey sampleId payloadSize) none
        :: d, by simpa using h1, by simpa using h2⟩
    | some e =>
      by_cases hnf : stringsContains e.Error "NotFound:" = true
      · cases hm : env.makeSliceError payloadSize with
        | some msg =>
          refine ⟨[], [Event.HeadObject ctx.Path (env.generateObjectKey sampleId payloadSize)
            (some e)], ?_, ?_⟩
          · simp [hnf, hm]
          · simp [hnf, hm]
        | none =>
          cases hp : ctx.Client.PutObject
              (w ++ [Event.HeadObject ctx.Path (env.generateObjectKey sampleId payloadSize)
                (some e)]) ctx.Path (env.generateObjectKey sampleId payloadSize) payloadSize with
          | none =>
            obtain ⟨added, d, h1, h2⟩ := ih
              { op with keys := op.keys ++ [env.generateObjectKey sampleId payloadSize] }
              (ticker.Add t 1)
              (w ++ [Event.HeadObject ctx.Path (env.generateObjectKey sampleId payloadSize)
                  (some e)]
                ++ [Event.PutObject ctx.Path (env.generateObjectKey sampleId payloadSize)
                  payloadSize none])
            refine ⟨env.generateObjectKey sampleId payloadSize :: added,
              Event.HeadObject ctx.Path (env.generateObjectKey sampleId payloadSize) (some e)
                :: Event.PutObject ctx.Path (env.generateObjectKey sampleId payloadSize)
                    payloadSize none :: d,
              ?_, ?_⟩
            · simpa [hnf, hm, hp] using h1
            · simpa [hnf, hm, hp] using h2
          | some e2 =>
            obtain ⟨d, hc, -, -⟩ := cleanupTestdata_spec ctx NilTicker
              { op with keys := op.keys ++ [env.generateObjectKey sampleId payloadSize] } ()
              (w ++ [Event.HeadObject ctx.Path (env.generateObjectKey sampleId payloadSize)
                  (some e),
                Event.PutObject ctx.Path (env.generateObjectKey sampleId payloadSize)
                  payloadSize (some e2)])
            refine ⟨[env.generateObjectKey sampleId payloadSize],
              Event.HeadObject ctx.Path (env.generateObjectKey sampleId payloadSize) (some e)
                :: Event.PutObject ctx.Path (env.generateObjectKey sampleId payloadSize)
                    payloadSize (some e2) :: d,
              ?_, ?_⟩
            · simp [hnf, hm, hp, hc]
            · simp [hnf, hm, hp, hc]
      · obtain ⟨d, hc, -, -⟩ := cleanupTestdata_spec ctx NilTicker op ()
          (w ++ [Event.HeadObject ctx.Path (env.generateObjectKey sampleId payloadSize)
              (some e)])
        refine ⟨[], Event.HeadObject ctx.Path (env.generateObjectKey sampleId payloadSize)
          (some e) :: d, ?_, ?_⟩
        · simp [hnf, hc]
        · simp [hnf, hc]

/-- A run of the provisioning loop that does not panic: one `HeadObject` per sample, in
order, each followed by one successful `PutObject` exactly when it answered a not-found
error; the keys written are recorded in order; the ticker is advanced once per sample. -/
theorem ensureLoop_ok {τ : Type} (env : Env) (ctx : BenchmarkContext)
    (payloadSize : Nat) (ticker : Ticker τ) (ids : List Int) (op : OperationRead) (t : τ)
    (w : Trace) (op1 : OperationRead) (t1 : τ) (w1 : Trace)
    (h : EnsureTestdata.loop env ctx payloadSize ticker ids op t w = (none, op1, t1, w1)) :
    ∃ rs : List (Option GoError),
      rs.length = ids.length ∧
      (∀ r ∈ rs, existsOrNotFound r = true) ∧
      w1 = w ++ (ids.zip rs).flatMap (provisionEvents env ctx payloadSize) ∧
      op1.keys = op.keys ++ ((ids.zip rs).filter (fun p => p.2.isSome)).map
        (fun p => env.generateObjectKey p.1 payloadSize) ∧
      op1.errKeys = op.errKeys ∧
      t1 = (fun s => ticker.Add s 1)^[ids.length] t := by
  induction ids generalizing op t w with
  | nil =>
    simp only [EnsureTestdata.loop, Prod.mk.injEq, true_and] at h
    obtain ⟨rfl, rfl, rfl⟩ := h
    exact ⟨[], by simp⟩
  | cons sampleId rest ih =>
    rw [EnsureTestdata.loop] at h
    cases hh : ctx.Client.HeadObject w ctx.Path (env.generateObjectKey sampleId payloadSize) with
    | none =>
      simp only [hh] at h
      obtain ⟨rs, h1, h2, h3, h4, h5, h6⟩ := ih _ _ _ h
      refine ⟨none :: rs, by simp [h1], ?_, ?_, ?_, h5, ?_⟩
      · intro r hr
        rcases List.mem_cons.mp hr with rfl | hr
        · rfl
        · exact h2 r hr
      · simp [h3, provisionEvents]
      · simp [h4]
      · simp [h6]
    | some e =>
      simp only [hh] at h
      by_cases hnf : stringsContains e.Error "NotFound:" = true
      · cases hm : env.makeSliceError payloadSize with
        | some msg => simp [hnf, hm] at h
        | none =>
          cases hp : ctx.Client.PutObject
              (w ++ [Event.HeadObject ctx.Path (env.generateObjectKey sampleId payloadSize)
                (some e)]) ctx.Path (env.generateObjectKey sampleId payloadSize) payloadSize with
          | none =>
            simp only [hnf, hm, hp] at h
            obtain ⟨rs, h1, h2, h3, h4, h5, h6⟩ := ih _ _ _ h
            refine ⟨some e :: rs, by simp [h1], ?_, ?_, ?_, h5, ?_⟩
            · intro r hr
              rcases List.mem_cons.mp hr with rfl | hr
              · exact hnf
              · exact h2 r hr
            · simp [h3, provisionEvents]
            · simp [h4]
            · simp [h6]
          | some e2 =>
            simp [hnf, hm, hp] at h
      · simp [hnf] at h

theorem ensureLoop_append {τ : Type} (env : Env) (ctx : BenchmarkContext)
    (payloadSize : Nat) (ticker : Ticker τ) (a b : List Int) (op : OperationRead) (t : τ)
    (w : Trace) (op1 : OperationRead) (t1 : τ) (w1 : Trace)
    (h : EnsureTestdata.loop env ctx payloadSize ticker a op t w = (none, op1, t1, w1)) :
    EnsureTestdata.loop env ctx payloadSize ticker (a ++ b) op t w
      = EnsureTestdata.loop env ctx payloadSize ticker b op1 t1 w1 := by
  induction a generalizing op t w with
  | nil =>
    simp only [EnsureTestdata.loop, Prod.mk.injEq, true_and] at h
    obtain ⟨rfl, rfl, rfl⟩ := h
    rfl
  | cons sampleId rest ih =>
    rw [EnsureTestdata.loop] at h
    rw [List.cons_append, EnsureTestdata.loop]
    cases hh : ctx.Client.HeadObject w ctx.Path (env.generateObjectKey sampleId payloadSize) with
    | none =>
      simp only [hh] at h
      exact ih _ _ _ h
    | some e =>
      simp only [hh] at h
      by_cases hnf : stringsContains e.Error "NotFound:" = true
      · cases hm : env.makeSliceError payloadSize with
        | some msg => simp [hnf, hm] at h
        | none =>
          cases hp : ctx.Client.PutObject
              (w ++ [Event.HeadObject ctx.Path (env.generateObjectKey sampleId payloadSize)
                (some e)]) ctx.Path (env.generateObjectKey sampleId payloadSize) payloadSize with
          | none =>
            simp only [hnf, hm, hp] at h
            simp only [hnf, hm]
            exact ih _ _ _ h
          | some e2 =>
            simp [hnf, hm, hp] at h
      · simp [hnf] at h

theorem sampleIds_length (n : Int) : (sampleIds n).length = n.toNat := by
  simp [sampleIds]

/-- The sample indices up to `n` are those below `k`, then `k`, then the rest. -/
theorem sampleIds_split (n : Int) (k : Nat) (hk1 : 1 ≤ k) (hkn : (k : Int) ≤ n) :
    ∃ rest : List Int, sampleIds n = sampleIds ((k : Int) - 1) ++ (k : Int) :: rest := by
  obtain ⟨m, h1⟩ : ∃ m, n.toNat = (k - 1) + (m + 1) := ⟨n.toNat - k, by omega⟩
  have h2 : ((k : Int) - 1).toNat = k - 1 := by omega
  refine ⟨((List.range m).map Nat.succ).map (fun (i : Nat) => ((k - 1 + i : Nat) : Int) + 1),
    ?_⟩
  unfold sampleIds
  rw [h2, h1, List.range_add, List.map_append, List.range_succ_eq_map]
  simp only [List.map_cons, List.map_map, List.append_cancel_left_eq, List.cons.injEq]
  constructor
  · push_cast
    omega
  · rfl

theorem putKeys_provision (env : Env) (ctx : BenchmarkContext) (payloadSize : Nat)
    (l : List (Int × Option GoError)) :
    putKeys (l.flatMap (provisionEvents env ctx payloadSize))
      = (l.filter (fun p => p.2.isSome)).map (fun p => env.generateObjectKey p.1 payloadSize) := by
  induction l with
  | nil => rfl
  | cons p rest ih =>
    obtain ⟨i, r⟩ := p
    cases r with
    | none =>
      rw [List.flatMap_cons, putKeys_append, ih]
      simp [provisionEvents, putKeys]
    | some e =>
      rw [List.flatMap_cons, putKeys_append, ih]
      simp [provisionEvents, putKeys]

theorem zip_fst_unique {α β : Type} (l : List α) (hl : l.Nodup) (rs : List β) (a : α)
    (x y : β) (h1 : (a, x) ∈ l.zip rs) (h2 : (a, y) ∈ l.zip rs) : x = y := by
  induction l generalizing rs with
  | nil => simp at h1
  | cons b l ih =>
    cases rs with
    | nil => simp at h1
    | cons r rs =>
      rw [List.nodup_cons] at hl
      rw [List.zip_cons_cons, List.mem_cons] at h1 h2
      rcases h1 with h1 | h1 <;> rcases h2 with h2 | h2
      · rw [Prod.mk.injEq] at h1 h2
        rw [h1.2, h2.2]
      · rw [Prod.mk.injEq] at h1
        exact absurd (h1.1 ▸ (List.of_mem_zip h2).1) hl.1
      · rw [Prod.mk.injEq] at h2
        exact absurd (h2.1 ▸ (List.of_mem_zip h1).1) hl.1
      · exact ih hl.2 rs h1 h2

theorem sampleIds_nodup (n : Int) : (sampleIds n).Nodup := by
  unfold sampleIds
  apply List.Nodup.map _ (List.nodup_range _)
  intro a b h
  simpa using h

/-! ### One `Execute` call whose request succeeds -/

/-- The complete result of an `Execute` call whose request succeeds and whose stream answers
end-of-stream or an error at read number `k`. -/
theorem execute_success_spec (env : Env) (ctx : BenchmarkContext) (fuel : Nat)
    (op : OperationRead) (sampleId : Int) (payloadSize : Nat) (w : Trace)
    (lat0 : Latency) (s : Stream)
    (hget : ctx.Client.GetObject (w ++ [Event.clock (env.clock w)]) ctx.Path
      (env.generateObjectKey sampleId payloadSize) = (lat0, s, none))
    (halloc : env.makeSliceError payloadSize = none)
    (k : Nat) (e : GoError)
    (hok : ∀ j < k,
      (nthRead ctx s payloadSize (drainStart env ctx sampleId payloadSize w) j).2 = none)
    (hend : (nthRead ctx s payloadSize (drainStart env ctx sampleId payloadSize w) k).2 = some e)
    (hfuel : k < fuel) :
    ∃ (reads : Trace) (c : Option GoError) (t1 t2 : Int),
      reads = drainEvents ctx s payloadSize (k + 1) (drainStart env ctx sampleId payloadSize w) ∧
      t1 = env.clock (afterRequest env ctx sampleId payloadSize w) ∧
      drainStart env ctx sampleId payloadSize w
        = w ++ [Event.clock (env.clock w),
                Event.GetObject ctx.Path (env.generateObjectKey sampleId payloadSize) lat0 s none,
                Event.clock t1] ∧
      c = ctx.Client.Close (drainStart env ctx sampleId payloadSize w ++ reads
            ++ drainLog env (env.generateObjectKey sampleId payloadSize) payloadSize sampleId
                (some e)) s ∧
      t2 = env.clock (drainStart env ctx sampleId payloadSize w ++ reads
            ++ drainLog env (env.generateObjectKey sampleId payloadSize) payloadSize sampleId
                (some e) ++ [Event.Close s c]) ∧
      Execute env ctx fuel op sampleId payloadSize w
        = some (none,
                { FirstByte := t1 - env.clock w, LastByte := t2 - env.clock w,
                  Errors := lat0.Errors ++ readError (some e) ++ c.toList },
                { keys := op.keys,
                  errKeys := op.errKeys
                    ++ (readError (some e)).map
                        (fun _ => env.generateObjectKey sampleId payloadSize)
                    ++ c.toList.map (fun _ => env.generateObjectKey sampleId payloadSize) },
                drainStart env ctx sampleId payloadSize w ++ reads
                  ++ drainLog env (env.generateObjectKey sampleId payloadSize) payloadSize
                      sampleId (some e)
                  ++ [Event.Close s c, Event.clock t2]
                  ++ closeLog (env.generateObjectKey sampleId payloadSize) c) := by
  have hreq : afterRequest env ctx sampleId payloadSize w
      = w ++ [Event.clock (env.clock w),
              Event.GetObject ctx.Path (env.generateObjectKey sampleId payloadSize) lat0 s
                none] := by
    simp [afterRequest, hget]
  have hstart : drainStart env ctx sampleId payloadSize w
      = w ++ [Event.clock (env.clock w),
              Event.GetObject ctx.Path (env.generateObjectKey sampleId payloadSize) lat0 s none,
              Event.clock (env.clock (afterRequest env ctx sampleId payloadSize w))] := by
    simp [drainStart, hreq]
  refine ⟨_, _, _, _, rfl, rfl, hstart, rfl, rfl, ?_⟩
  have hloop := readLoop_spec env ctx s (env.generateObjectKey sampleId payloadSize)
    sampleId payloadSize op
    { lat0 with FirstByte := env.clock (afterRequest env ctx sampleId payloadSize w)
        - env.clock w }
    k (drainStart env ctx sampleId payloadSize w) hok e hend fuel hfuel 0
  have hw : w ++ [Event.clock (env.clock w)]
      ++ [Event.GetObject ctx.Path (env.generateObjectKey sampleId payloadSize) lat0 s none]
      = afterRequest env ctx sampleId payloadSize w := by
    simp [hreq]
  have hw2 : afterRequest env ctx sampleId payloadSize w
      ++ [Event.clock (env.clock (afterRequest env ctx sampleId payloadSize w))]
      = drainStart env ctx sampleId payloadSize w := rfl
  simp only [Execute, hget, halloc, hw, hw2, hloop]
  cases hc : ctx.Client.Close (drainStart env ctx sampleId payloadSize w
      ++ drainEvents ctx s payloadSize (k + 1) (drainStart env ctx sampleId payloadSize w)
      ++ drainLog env (env.generateObjectKey sampleId payloadSize) payloadSize sampleId
          (some e)) s with
  | none => simp [closeLog]
  | some ce => simp [closeLog]

/-! ### Any `Execute` call that returns -/

theorem failureErrors_append (a b : Trace) :
    failureErrors (a ++ b) = failureErrors a ++ failureErrors b := by
  induction a with
  | nil => rfl
  | cons e rest ih =>
    cases e with
    | GetObject path key latency dataStream err => cases err <;> simp [failureErrors, ih]
    | Read dataStream bufLen n err =>
      cases err with
      | none => simp [failureErrors, ih]
      | some e => cases e <;> simp [failureErrors, ih]
    | Close dataStream err => cases err <;> simp [failureErrors, ih]
    | _ => simp [failureErrors, ih]

/-- Whenever the drain loop returns, it has only extended the transcript, and it has appended
the key to `errKeys` and the error to the `Latency` once per failure it met. -/
theorem readLoop_frame (env : Env) (ctx : BenchmarkContext) (s : Stream) (key : String)
    (sampleId : Int) (payloadSize : Nat) (fuel : Nat) (size : Int) (op : OperationRead)
    (latency : Latency) (w : Trace) (op1 : OperationRead) (lat1 : Latency) (w1 : Trace)
    (h : Execute.readLoop env ctx s key sampleId payloadSize fuel size op latency w
      = some (op1, lat1, w1)) :
    ∃ d : Trace, w1 = w ++ d ∧
      op1 = { keys := op.keys, errKeys := op.errKeys ++ (failureErrors d).map (fun _ => key) } ∧
      lat1 = { latency with Errors := latency.Errors ++ failureErrors d } := by
  induction fuel generalizing size w with
  | zero => simp [Execute.readLoop] at h
  | succ fuel ih =>
    rw [Execute.readLoop] at h
    cases hr : (ctx.Client.Read w s payloadSize).2 with
    | none =>
      simp only [hr] at h
      obtain ⟨d, h1, h2, h3⟩ := ih _ _ h
      refine ⟨Event.Read s payloadSize (ctx.Client.Read w s payloadSize).1 none :: d, ?_, ?_, ?_⟩
      · simp [h1]
      · simp [h2, failureErrors]
      · simp [h3, failureErrors]
    | some e =>
      cases e with
      | EOF =>
        simp only [hr, Option.some.injEq, Prod.mk.injEq] at h
        obtain ⟨rfl, rfl, rfl⟩ := h
        exact ⟨[Event.Read s payloadSize (ctx.Client.Read w s payloadSize).1 (some GoError.EOF)],
          rfl, by simp [failureErrors], by simp [failureErrors]⟩
      | other text =>
        simp only [hr, Option.some.injEq, Prod.mk.injEq] at h
        obtain ⟨rfl, rfl, rfl⟩ := h
        exact ⟨[Event.Read s payloadSize (ctx.Client.Read w s payloadSize).1
            (some (GoError.other text)),
          Event.WarningLogger (readFailedMsg env key payloadSize sampleId (GoError.other text))],
          by simp, by simp [failureErrors], by simp [failureErrors]⟩

/-- Whenever `Execute` ends, by returning or by panicking, it has left `keys` alone, only
extended the transcript, and appended the key of its sample to `errKeys` and the error to the
client's `Latency` once per failure it met (failed request, failed read, failed close). -/
theorem execute_frame (env : Env) (ctx : BenchmarkContext) (fuel : Nat) (op : OperationRead)
    (sampleId : Int) (payloadSize : Nat) (w : Trace) (p : Option String)
    (lat : Latency) (op1 : OperationRead) (w1 : Trace)
    (h : Execute env ctx fuel op sampleId payloadSize w = some (p, lat, op1, w1)) :
    ∃ (d : Trace) (lat0 : Latency) (s : Stream) (err : Option GoError),
      w1 = w ++ d ∧
      op1 = { keys := op.keys,
              errKeys := op.errKeys ++ (failureErrors d).map
                (fun _ => env.generateObjectKey sampleId payloadSize) } ∧
      lat.Errors = lat0.Errors ++ failureErrors d ∧
      Event.GetObject ctx.Path (env.generateObjectKey sampleId payloadSize) lat0 s err ∈ d := by
  unfold Execute at h
  rcases hg : ctx.Client.GetObject (w ++ [Event.clock (env.clock w)]) ctx.Path
    (env.generateObjectKey sampleId payloadSize) with ⟨lat0, s, err⟩
  simp only [hg] at h
  cases err with
  | some e =>
    simp only [Option.some.injEq, Prod.mk.injEq] at h
    obtain ⟨-, rfl, rfl, rfl⟩ := h
    exact ⟨[Event.clock (env.clock w),
      Event.GetObject ctx.Path (env.generateObjectKey sampleId payloadSize) lat0 s (some e),
      Event.ErrorLogger (getFailedMsg (env.generateObjectKey sampleId payloadSize) e)],
      lat0, s, some e, by simp, by simp [failureErrors], by simp [failureErrors], by simp⟩
  | none =>
    simp only at h
    cases hm : env.makeSliceError payloadSize with
    | some msg =>
      simp only [hm, Option.some.injEq, Prod.mk.injEq] at h
      obtain ⟨-, rfl, rfl, rfl⟩ := h
      exact ⟨[Event.clock (env.clock w),
        Event.GetObject ctx.Path (env.generateObjectKey sampleId payloadSize) lat0 s none,
        Event.clock (env.clock (w ++ [Event.clock (env.clock w),
          Event.GetObject ctx.Path (env.generateObjectKey sampleId payloadSize) lat0 s
            none]))],
        lat0, s, none, by simp, by simp [failureErrors], by simp [failureErrors], by simp⟩
    | none =>
      simp only [hm] at h
      cases hl : Execute.readLoop env ctx s (env.generateObjectKey sampleId payloadSize) sampleId
          payloadSize fuel 0 op
          { lat0 with FirstByte := env.clock (w ++ [Event.clock (env.clock w)]
              ++ [Event.GetObject ctx.Path (env.generateObjectKey sampleId payloadSize) lat0 s
                none]) - env.clock w }
          (w ++ [Event.clock (env.clock w)]
            ++ [Event.GetObject ctx.Path (env.generateObjectKey sampleId payloadSize) lat0 s
              none]
            ++ [Event.clock (env.clock (w ++ [Event.clock (env.clock w)]
              ++ [Event.GetObject ctx.Path (env.generateObjectKey sampleId payloadSize) lat0 s
                none]))]) with
      | none =>
        simp only [hl] at h
        cases h
      | some res =>
        obtain ⟨op2, lat2, w2⟩ := res
        obtain ⟨d, h1, h2, h3⟩ := readLoop_frame _ _ _ _ _ _ _ _ _ _ _ _ _ _ hl
        simp only [hl] at h
        cases hc : ctx.Client.Close w2 s with
        | none =>
          simp only [hc, Option.some.injEq, Prod.mk.injEq] at h
          obtain ⟨-, rfl, rfl, rfl⟩ := h
          refine ⟨[Event.clock (env.clock w),
            Event.GetObject ctx.Path (env.generateObjectKey sampleId payloadSize) lat0 s none,
            Event.clock (env.clock (w ++ [Event.clock (env.clock w),
              Event.GetObject ctx.Path (env.generateObjectKey sampleId payloadSize) lat0 s
                none]))] ++ d ++ [Event.Close s none, Event.clock (env.clock
                  (w2 ++ [Event.Close s none]))], lat0, s, none, ?_, ?_, ?_, ?_⟩
          · simp [h1, hc]
          · simp [h2, failureErrors_append, failureErrors]
          · simp [h3, failureErrors_append, failureErrors]
          · simp
        | some ce =>
          simp only [hc, Option.some.injEq, Prod.mk.injEq] at h
          obtain ⟨-, rfl, rfl, rfl⟩ := h
          refine ⟨[Event.clock (env.clock w),
            Event.GetObject ctx.Path (env.generateObjectKey sampleId payloadSize) lat0 s none,
            Event.clock (env.clock (w ++ [Event.clock (env.clock w),
              Event.GetObject ctx.Path (env.generateObjectKey sampleId payloadSize) lat0 s
                none]))] ++ d ++ [Event.Close s (some ce), Event.clock (env.clock
                  (w2 ++ [Event.Close s (some ce)])),
              Event.ErrorLogger
                (closeFailedMsg (env.generateObjectKey sampleId payloadSize) ce)],
            lat0, s, none, ?_, ?_, ?_, ?_⟩
          · simp [h1, hc]
          · simp [h2, failureErrors_append, failureErrors]
          · simp [h3, failureErrors_append, failureErrors]
          · simp

/-! ### A sequential run of `Execute` calls -/

theorem mem_runErrKeys (env : Env) (payloadSize : Nat) (runs : List ExecRun) (k : String) :
    k ∈ runErrKeys env payloadSize runs
      ↔ ∃ r ∈ runs, failureErrors r.events ≠ []
          ∧ env.generateObjectKey r.sampleId payloadSize = k := by
  induction runs with
  | nil => simp [runErrKeys]
  | cons r rest ih =>
    rw [runErrKeys, List.mem_append, ih]
    constructor
    · rintro (h | ⟨q, hq, hne, hk⟩)
      · rw [List.mem_map] at h
        obtain ⟨e, he, hk⟩ := h
        exact ⟨r, List.mem_cons_self _ _, List.ne_nil_of_mem he, hk⟩
      · exact ⟨q, List.mem_cons_of_mem _ hq, hne, hk⟩
    · rintro ⟨q, hq, hne, hk⟩
      rcases List.mem_cons.mp hq with rfl | hq
      · left
        obtain ⟨e, he⟩ := List.exists_mem_of_ne_nil _ hne
        exact List.mem_map.mpr ⟨e, he, hk⟩
      · exact Or.inr ⟨q, hq, hne, hk⟩

theorem mem_failedIds (runs : List ExecRun) (i : Int) :
    i ∈ failedIds runs ↔ ∃ r ∈ runs, failureErrors r.events ≠ [] ∧ r.sampleId = i := by
  simp only [failedIds, List.mem_map, List.mem_filter, Bool.not_eq_true', List.isEmpty_eq_false]
  constructor
  · rintro ⟨r, ⟨hr, hne⟩, hi⟩
    exact ⟨r, hr, hne, hi⟩
  · rintro ⟨r, hr, hne, hi⟩
    exact ⟨r, ⟨hr, hne⟩, hi⟩

/-- What a sequential run of `Execute` calls that returns has done to the operation state. -/
theorem executeAll_spec (env : Env) (ctx : BenchmarkContext) (fuel : Nat) (payloadSize : Nat)
    (ids : List Int) (op : OperationRead) (w : Trace)
    (runs : List ExecRun) (op2 : OperationRead) (w2 : Trace)
    (h : ExecuteAll env ctx fuel payloadSize ids op w = some (runs, op2, w2)) :
    runs.map ExecRun.sampleId = ids ∧
    op2.keys = op.keys ∧
    op2.errKeys = op.errKeys ++ runErrKeys env payloadSize runs ∧
    (∀ r ∈ runs, ∃ (lat0 : Latency) (s : Stream) (err : Option GoError),
      Event.GetObject ctx.Path (env.generateObjectKey r.sampleId payloadSize) lat0 s err
        ∈ r.events ∧
      r.latency.Errors = lat0.Errors ++ failureErrors r.events) := by
  induction ids generalizing op w runs with
  | nil =>
    simp only [ExecuteAll, Option.some.injEq, Prod.mk.injEq] at h
    obtain ⟨rfl, rfl, rfl⟩ := h
    simp [runErrKeys]
  | cons sampleId rest ih =>
    rw [ExecuteAll] at h
    cases hE : Execute env ctx fuel op sampleId payloadSize w with
    | none =>
      simp only [hE] at h
      cases h
    | some res =>
      obtain ⟨p, lat, op1, w1⟩ := res
      cases p with
      | some msg =>
        simp only [hE] at h
        cases h
      | none =>
        simp only [hE] at h
        cases hA : ExecuteAll env ctx fuel payloadSize rest op1 w1 with
        | none =>
          simp only [hA] at h
          cases h
        | some res2 =>
          obtain ⟨runs1, op3, w3⟩ := res2
          simp only [hA, Option.some.injEq, Prod.mk.injEq] at h
          obtain ⟨rfl, rfl, rfl⟩ := h
          obtain ⟨h1, h2, h3, h4⟩ := ih _ _ _ hA
          obtain ⟨d, lat0, s, err, g1, g2, g3, g4⟩ := execute_frame _ _ _ _ _ _ _ _ _ _ _ hE
          have hd : List.drop w.length w1 = d := by
            rw [g1, List.drop_left]
          refine ⟨by simp [h1], ?_, ?_, ?_⟩
          · rw [h2, g2]
          · rw [h3, g2, runErrKeys, hd]
            simp
          · intro r hr
            rcases List.mem_cons.mp hr with rfl | hr
            · exact ⟨lat0, s, err, by rw [hd]; exact g4, by rw [hd]; exact g3⟩
            · exact h4 r hr

/-! ## Claims about `EnsureTestdata` -/

/-- C4: when `EnsureTestdata` on a fresh `OperationRead` does not abort, there is one
existence-check answer per sample, each either "exists" or a not-found error, such that the
calls made are, sample by sample in ascending order, the `HeadObject` call followed by exactly
one (successful) `PutObject` when the answer was not-found and by nothing when the object
exists; `op.keys` is the list of the keys of the not-found samples in ascending order, which
is also the list of keys written; and, the key generator being injective on the samples, the
key of a sample that already exists is not in `op.keys`. -/
theorem ensure_writes_only_missing {τ : Type} (env : Env) (ctx : BenchmarkContext)
    (payloadSize : Nat) (ticker : Ticker τ) (t : τ) (w : Trace)
    (op1 : OperationRead) (t1 : τ) (w1 : Trace)
    (hrun : EnsureTestdata env ctx payloadSize ticker (OperationRead.mk [] []) t w
      = (none, op1, t1, w1)) :
    ∃ rs : List (Option GoError),
      rs.length = ctx.Samples.toNat ∧
      (∀ r ∈ rs, existsOrNotFound r = true) ∧
      w1 = w ++ ((sampleIds ctx.Samples).zip rs).flatMap (provisionEvents env ctx payloadSize) ∧
      op1.keys = (((sampleIds ctx.Samples).zip rs).filter (fun p => p.2.isSome)).map
        (fun p => env.generateObjectKey p.1 payloadSize) ∧
      putKeys (((sampleIds ctx.Samples).zip rs).flatMap (provisionEvents env ctx payloadSize))
        = op1.keys ∧
      ((∀ i ∈ sampleIds ctx.Samples, ∀ j ∈ sampleIds ctx.Samples,
          env.generateObjectKey i payloadSize = env.generateObjectKey j payloadSize → i = j) →
        ∀ p ∈ (sampleIds ctx.Samples).zip rs, p.2 = none →
          env.generateObjectKey p.1 payloadSize ∉ op1.keys) := by
  obtain ⟨rs, h1, h2, h3, h4, -, -⟩ :=
    ensureLoop_ok env ctx payloadSize ticker _ _ _ _ _ _ _ hrun
  have h4b : op1.keys = (((sampleIds ctx.Samples).zip rs).filter (fun p => p.2.isSome)).map
      (fun p => env.generateObjectKey p.1 payloadSize) := by simpa using h4
  refine ⟨rs, by rw [h1, sampleIds_length], h2, h3, h4b, ?_, ?_⟩
  · rw [putKeys_provision, h4b]
  · intro hinj p hp hnone hmem
    rw [h4b, List.mem_map] at hmem
    obtain ⟨q, hq, hqk⟩ := hmem
    rw [List.mem_filter] at hq
    obtain ⟨i, r⟩ := p
    obtain ⟨j, r2⟩ := q
    have hji : j = i := hinj j (List.of_mem_zip hq.1).1 i (List.of_mem_zip hp).1 hqk
    subst hji
    have : r2 = r := zip_fst_unique _ (sampleIds_nodup _) rs j r2 r hq.1 hp
    subst this
    simp only at hnone
    rw [hnone] at hq
    simp at hq

/-- Witness of C4: three samples, of which the second already exists. -/
theorem ensure_writes_only_missing_witness :
    EnsureTestdata demoEnv (demoCtx secondExistsClient 3) 1024 (Ticker.mk (fun (s n : Int) => s + n))
        (OperationRead.mk [] []) 0 []
      = (none, OperationRead.mk ["obj-1", "obj-3"] [], 3,
          [Event.HeadObject "bucket" "obj-1" (some (GoError.other "NotFound: no such key")),
           Event.PutObject "bucket" "obj-1" 1024 none,
           Event.HeadObject "bucket" "obj-2" none,
           Event.HeadObject "bucket" "obj-3" (some (GoError.other "NotFound: no such key")),
           Event.PutObject "bucket" "obj-3" 1024 none]) ∧
    ∃ rs : List (Option GoError),
      rs.length = 3 ∧
      [Event.HeadObject "bucket" "obj-1" (some (GoError.other "NotFound: no such key")),
       Event.PutObject "bucket" "obj-1" 1024 none,
       Event.HeadObject "bucket" "obj-2" none,
       Event.HeadObject "bucket" "obj-3" (some (GoError.other "NotFound: no such key")),
       Event.PutObject "bucket" "obj-3" 1024 none]
        = [] ++ ((sampleIds 3).zip rs).flatMap
            (provisionEvents demoEnv (demoCtx secondExistsClient 3) 1024) := by
  refine ⟨rfl, ?_⟩
  obtain ⟨rs, h1, -, h3, -⟩ :=
    ensure_writes_only_missing demoEnv (demoCtx secondExistsClient 3) 1024
      (Ticker.mk (fun (s n : Int) => s + n)) 0 []
      (OperationRead.mk ["obj-1", "obj-3"] []) 3 _ rfl
  exact ⟨rs, h1, h3⟩

/-- C5: on a fresh `OperationRead`, when the loop gets through samples `1 .. k-1` without
aborting, the existence check of sample `k` answers a not-found error and the write of sample
`k` (which is issued, its payload buffer having been allocated) fails with `e2`:
`EnsureTestdata` panics with `"Failed to put object: "` followed by the
text of `e2`; the key of sample `k` has been recorded; the only calls made after the failed
write are those of `CleanupTestdata` run with `NilTicker`, which deletes every recorded key,
the key of sample `k` included; there is no existence check or write for a later sample;
and the caller's ticker has received `Add(1)` exactly `k` times. -/
theorem ensure_put_failure {τ : Type} (env : Env) (ctx : BenchmarkContext)
    (payloadSize : Nat) (ticker : Ticker τ) (t : τ) (w : Trace) (k : Nat)
    (hk1 : 1 ≤ k) (hkn : (k : Int) ≤ ctx.Samples)
    (op1 : OperationRead) (t1 : τ) (w1 : Trace)
    (hpre : EnsureTestdata.loop env ctx payloadSize ticker (sampleIds ((k : Int) - 1))
      (OperationRead.mk [] []) t w = (none, op1, t1, w1))
    (e1 : GoError)
    (hhead : ctx.Client.HeadObject w1 ctx.Path (env.generateObjectKey k payloadSize) = some e1)
    (hnf : stringsContains e1.Error "NotFound:" = true)
    (halloc : env.makeSliceError payloadSize = none)
    (e2 : GoError)
    (hput : ctx.Client.PutObject
      (w1 ++ [Event.HeadObject ctx.Path (env.generateObjectKey k payloadSize) (some e1)])
      ctx.Path (env.generateObjectKey k payloadSize) payloadSize = some e2) :
    ∃ (rs : List (Option GoError)) (d : Trace),
      EnsureTestdata env ctx payloadSize ticker (OperationRead.mk [] []) t w
        = (some ("Failed to put object: " ++ e2.Error),
           OperationRead.mk (op1.keys ++ [env.generateObjectKey k payloadSize]) [],
           (fun s => ticker.Add s 1)^[k] t,
           w1 ++ [Event.HeadObject ctx.Path (env.generateObjectKey k payloadSize) (some e1),
                  Event.PutObject ctx.Path (env.generateObjectKey k payloadSize) payloadSize
                    (some e2)] ++ d) ∧
      (CleanupTestdata ctx NilTicker
          (OperationRead.mk (op1.keys ++ [env.generateObjectKey k payloadSize]) []) ()
          (w1 ++ [Event.HeadObject ctx.Path (env.generateObjectKey k payloadSize) (some e1),
                  Event.PutObject ctx.Path (env.generateObjectKey k payloadSize) payloadSize
                    (some e2)])).2.2
        = w1 ++ [Event.HeadObject ctx.Path (env.generateObjectKey k payloadSize) (some e1),
                 Event.PutObject ctx.Path (env.generateObjectKey k payloadSize) payloadSize
                   (some e2)] ++ d ∧
      deletedKeys d = op1.keys ++ [env.generateObjectKey k payloadSize] ∧
      (∀ x ∈ d, isDeleteOn ctx.Path x = true) ∧
      rs.length = k - 1 ∧
      w1 = w ++ ((sampleIds ((k : Int) - 1)).zip rs).flatMap
        (provisionEvents env ctx payloadSize) := by
  obtain ⟨rest, hsplit⟩ := sampleIds_split ctx.Samples k hk1 hkn
  obtain ⟨rs, h1, -, h3, -, h5, h6⟩ :=
    ensureLoop_ok env ctx payloadSize ticker _ _ _ _ _ _ _ hpre
  have hlen : (sampleIds ((k : Int) - 1)).length = k - 1 := by
    rw [sampleIds_length]
    omega
  have herr : op1.errKeys = [] := h5
  obtain ⟨d, hc, hdel, hall⟩ := cleanupTestdata_spec ctx NilTicker
    (OperationRead.mk (op1.keys ++ [env.generateObjectKey k payloadSize]) []) ()
    (w1 ++ [Event.HeadObject ctx.Path (env.generateObjectKey k payloadSize) (some e1),
            Event.PutObject ctx.Path (env.generateObjectKey k payloadSize) payloadSize
              (some e2)])
  have htick : ticker.Add t1 1 = (fun s => ticker.Add s 1)^[k] t := by
    obtain ⟨m, rfl⟩ : ∃ m, k = m + 1 := ⟨k - 1, by omega⟩
    rw [Function.iterate_succ_apply', h6, hlen]
    rfl
  refine ⟨rs, d, ?_, ?_, ?_, hall, by rw [h1, hlen], h3⟩
  · unfold EnsureTestdata
    rw [hsplit, ensureLoop_append env ctx payloadSize ticker _ _ _ _ _ _ _ _ hpre,
      EnsureTestdata.loop]
    simp only [hhead, hnf, halloc, herr]
    simp [hput, hc, htick]
  · rw [hc]
  · rw [hdel]
    simp [contains]

/-- Witness of C5: three samples, the write of the second one is refused. -/
theorem ensure_put_failure_witness :
    EnsureTestdata demoEnv (demoCtx putFailsClient 3) 1024 (Ticker.mk (fun (s n : Int) => s + n))
        (OperationRead.mk [] []) 0 []
      = (some "Failed to put object: quota exceeded", OperationRead.mk ["obj-1", "obj-2"] [], 2,
          [Event.HeadObject "bucket" "obj-1" (some (GoError.other "NotFound: no such key")),
           Event.PutObject "bucket" "obj-1" 1024 none,
           Event.HeadObject "bucket" "obj-2" (some (GoError.other "NotFound: no such key")),
           Event.PutObject "bucket" "obj-2" 1024 (some (GoError.other "quota exceeded")),
           Event.DeleteObject "bucket" "obj-1" none,
           Event.DeleteObject "bucket" "obj-2" none]) ∧
    ∃ d : Trace, deletedKeys d = ["obj-1"] ++ [demoEnv.generateObjectKey 2 1024] ∧
      (∀ x ∈ d, isDeleteOn "bucket" x = true) := by
  refine ⟨rfl, ?_⟩
  obtain ⟨rs, d, -, -, h3, h4, -⟩ :=
    ensure_put_failure demoEnv (demoCtx putFailsClient 3) 1024
      (Ticker.mk (fun (s n : Int) => s + n)) 0 [] 2 (by decide) (by decide)
      (OperationRead.mk ["obj-1"] []) 1
      [Event.HeadObject "bucket" "obj-1" (some (GoError.other "NotFound: no such key")),
       Event.PutObject "bucket" "obj-1" 1024 none]
      rfl (GoError.other "NotFound: no such key") rfl rfl rfl (GoError.other "quota exceeded")
      rfl
  exact ⟨d, h3, h4⟩

/-- C10 as stated fails: with a payload of `2 ^ 62` bytes, which the allocator refuses, the
existence check of sample 1 answers a not-found error, yet no write is issued: the run ends
at `make([]byte, payloadSize)` with the runtime error, without cleanup. -/
theorem ensure_head_error_counterexample :
    EnsureTestdata.loop demoEnv (demoCtx putFailsClient 3) (2 ^ 62)
        (Ticker.mk (fun (s n : Int) => s + n)) (sampleIds (((1 : Nat) : Int) - 1))
        (OperationRead.mk [] []) 0 []
      = (none, OperationRead.mk [] [], 0, []) ∧
    (demoCtx putFailsClient 3).Client.HeadObject [] "bucket"
        (demoEnv.generateObjectKey 1 (2 ^ 62))
      = some (GoError.other "NotFound: no such key") ∧
    stringsContains (GoError.other "NotFound: no such key").Error "NotFound:" = true ∧
    EnsureTestdata demoEnv (demoCtx putFailsClient 3) (2 ^ 62)
        (Ticker.mk (fun (s n : Int) => s + n)) (OperationRead.mk [] []) 0 []
      = (some "runtime error: makeslice: len out of range", OperationRead.mk [] [], 1,
          [Event.HeadObject "bucket" "obj-1" (some (GoError.other "NotFound: no such key"))]) ∧
    putKeys [Event.HeadObject "bucket" "obj-1" (some (GoError.other "NotFound: no such key"))]
      = [] := by
  refine ⟨rfl, rfl, rfl, ?_, rfl⟩
  have hm : demoEnv.makeSliceError (2 ^ 62)
      = some "runtime error: makeslice: len out of range" := by
    simp [demoEnv]
  have hids : sampleIds 3 = [1, 2, 3] := by decide
  unfold EnsureTestdata
  simp only [demoCtx, hids, EnsureTestdata.loop, hm]
  rfl

/-- C10, amended: when the loop of `EnsureTestdata` gets through samples `1 .. k-1` without
aborting and the existence check of sample `k` answers the error `e1`: if the text of `e1`
contains `"NotFound:"` and the payload buffer can be allocated, the next call is the
`PutObject` of sample `k`; if the text contains `"NotFound:"` and the allocation fails, the
run ends there with the runtime error, with no write, no cleanup and the key not recorded;
otherwise `EnsureTestdata` panics with `"Failed to head object: "` followed by the text of
`e1`, the operation state is the one reached before sample `k` (its key is not recorded), and
the only calls made after the failed check are the deletes of `CleanupTestdata` run with
`NilTicker` on the keys recorded so far: no write for sample `k` or a later one. -/
theorem ensure_head_error {τ : Type} (env : Env) (ctx : BenchmarkContext)
    (payloadSize : Nat) (ticker : Ticker τ) (op : OperationRead) (t : τ) (w : Trace) (k : Nat)
    (hk1 : 1 ≤ k) (hkn : (k : Int) ≤ ctx.Samples)
    (op1 : OperationRead) (t1 : τ) (w1 : Trace)
    (hpre : EnsureTestdata.loop env ctx payloadSize ticker (sampleIds ((k : Int) - 1))
      op t w = (none, op1, t1, w1))
    (e1 : GoError)
    (hhead : ctx.Client.HeadObject w1 ctx.Path (env.generateObjectKey k payloadSize)
      = some e1) :
    (stringsContains e1.Error "NotFound:" = true → env.makeSliceError payloadSize = none →
      ∃ (rest : Trace),
        (EnsureTestdata env ctx payloadSize ticker op t w).2.2.2
          = w1 ++ [Event.HeadObject ctx.Path (env.generateObjectKey k payloadSize) (some e1),
                   Event.PutObject ctx.Path (env.generateObjectKey k payloadSize) payloadSize
                     (ctx.Client.PutObject
                       (w1 ++ [Event.HeadObject ctx.Path (env.generateObjectKey k payloadSize)
                         (some e1)])
                       ctx.Path (env.generateObjectKey k payloadSize) payloadSize)] ++ rest) ∧
    (stringsContains e1.Error "NotFound:" = true →
      ∀ msg : String, env.makeSliceError payloadSize = some msg →
        EnsureTestdata env ctx payloadSize ticker op t w
          = (some msg, op1, (fun s => ticker.Add s 1)^[k] t,
             w1 ++ [Event.HeadObject ctx.Path (env.generateObjectKey k payloadSize)
               (some e1)])) ∧
    (stringsContains e1.Error "NotFound:" = false →
      ∃ d : Trace,
        EnsureTestdata env ctx payloadSize ticker op t w
          = (some ("Failed to head object: " ++ e1.Error), op1,
             (fun s => ticker.Add s 1)^[k] t,
             w1 ++ [Event.HeadObject ctx.Path (env.generateObjectKey k payloadSize) (some e1)]
               ++ d) ∧
        CleanupTestdata ctx NilTicker op1 ()
            (w1 ++ [Event.HeadObject ctx.Path (env.generateObjectKey k payloadSize) (some e1)])
          = (op1, (),
             w1 ++ [Event.HeadObject ctx.Path (env.generateObjectKey k payloadSize) (some e1)]
               ++ d) ∧
        deletedKeys d = op1.keys.filter (fun key => decide (key ∉ op1.errKeys)) ∧
        (∀ x ∈ d, isDeleteOn ctx.Path x = true) ∧
        putKeys ([Event.HeadObject ctx.Path (env.generateObjectKey k payloadSize) (some e1)]
          ++ d) = []) := by
  obtain ⟨rest, hsplit⟩ := sampleIds_split ctx.Samples k hk1 hkn
  obtain ⟨rs, h1, -, -, -, -, h6⟩ :=
    ensureLoop_ok env ctx payloadSize ticker _ _ _ _ _ _ _ hpre
  have hlen : (sampleIds ((k : Int) - 1)).length = k - 1 := by
    rw [sampleIds_length]
    omega
  have htick : ticker.Add t1 1 = (fun s => ticker.Add s 1)^[k] t := by
    obtain ⟨m, rfl⟩ : ∃ m, k = m + 1 := ⟨k - 1, by omega⟩
    rw [Function.iterate_succ_apply', h6, hlen]
    rfl
  have hrun : EnsureTestdata env ctx payloadSize ticker op t w
      = EnsureTestdata.loop env ctx payloadSize ticker ((k : Int) :: rest) op1 t1 w1 := by
    unfold EnsureTestdata
    rw [hsplit, ensureLoop_append env ctx payloadSize ticker _ _ _ _ _ _ _ _ hpre]
  refine ⟨?_, ?_, ?_⟩
  · intro hnf halloc
    rw [hrun, EnsureTestdata.loop]
    simp only [hhead, hnf, halloc]
    cases hp : ctx.Client.PutObject
        (w1 ++ [Event.HeadObject ctx.Path (env.generateObjectKey k payloadSize) (some e1)])
        ctx.Path (env.generateObjectKey k payloadSize) payloadSize with
    | none =>
      obtain ⟨added, d, -, h2⟩ := ensureLoop_frame env ctx payloadSize ticker rest
        { op1 with keys := op1.keys ++ [env.generateObjectKey k payloadSize] }
        (ticker.Add t1 1)
        (w1 ++ [Event.HeadObject ctx.Path (env.generateObjectKey k payloadSize) (some e1)]
          ++ [Event.PutObject ctx.Path (env.generateObjectKey k payloadSize) payloadSize none])
      refine ⟨d, ?_⟩
      simpa using h2
    | some e2 =>
      obtain ⟨d, hc, -, -⟩ := cleanupTestdata_spec ctx NilTicker
        { op1 with keys := op1.keys ++ [env.generateObjectKey k payloadSize] } ()
        (w1 ++ [Event.HeadObject ctx.Path (env.generateObjectKey k payloadSize) (some e1),
            Event.PutObject ctx.Path (env.generateObjectKey k payloadSize) payloadSize
              (some e2)])
      refine ⟨d, ?_⟩
      simp [hc]
  · intro hnf msg halloc
    rw [hrun, EnsureTestdata.loop]
    simp only [hhead, hnf, halloc]
    simp [htick]
  · intro hnf
    obtain ⟨d, hc, hdel, hall⟩ := cleanupTestdata_spec ctx NilTicker op1 ()
      (w1 ++ [Event.HeadObject ctx.Path (env.generateObjectKey k payloadSize) (some e1)])
    have hf : op1.keys.filter (fun key => !contains op1.errKeys key)
        = op1.keys.filter (fun key => decide (key ∉ op1.errKeys)) := by
      apply List.filter_congr
      intro key _
      by_cases hk : key ∈ op1.errKeys
      · simp [hk, (contains_eq_true_iff op1.errKeys key).mpr hk]
      · have : contains op1.errKeys key = false := by
          cases hcn : contains op1.errKeys key
          · rfl
          · exact absurd ((contains_eq_true_iff _ _).mp hcn) hk
        simp [hk, this]
    refine ⟨d, ?_, ?_, by rw [hdel, hf], hall, ?_⟩
    · rw [hrun, EnsureTestdata.loop]
      simp only [hhead, hnf]
      simp [hc, htick]
    · rw [hc]
    · rw [putKeys_append, putKeys_of_deletes ctx.Path d hall]
      rfl

/-- Witness of the amended C10: three samples, the existence check of the second one is
refused. -/
theorem ensure_head_error_witness :
    EnsureTestdata demoEnv (demoCtx headFailsClient 3) 1024 (Ticker.mk (fun (s n : Int) => s + n))
        (OperationRead.mk [] []) 0 []
      = (some "Failed to head object: AccessDenied: forbidden", OperationRead.mk ["obj-1"] [], 2,
          [Event.HeadObject "bucket" "obj-1" (some (GoError.other "NotFound: no such key")),
           Event.PutObject "bucket" "obj-1" 1024 none,
           Event.HeadObject "bucket" "obj-2" (some (GoError.other "AccessDenied: forbidden")),
           Event.DeleteObject "bucket" "obj-1" none]) ∧
    stringsContains (GoError.other "AccessDenied: forbidden").Error "NotFound:" = false ∧
    ∃ d : Trace, deletedKeys d = ["obj-1"] ∧
      putKeys ([Event.HeadObject "bucket" (demoEnv.generateObjectKey 2 1024)
        (some (GoError.other "AccessDenied: forbidden"))] ++ d) = [] := by
  refine ⟨rfl, rfl, ?_⟩
  obtain ⟨d, -, -, h3, -, h5⟩ :=
    (ensure_head_error demoEnv (demoCtx headFailsClient 3) 1024
      (Ticker.mk (fun (s n : Int) => s + n)) (OperationRead.mk [] []) 0 [] 2
      (by decide) (by decide)
      (OperationRead.mk ["obj-1"] []) 1
      [Event.HeadObject "bucket" "obj-1" (some (GoError.other "NotFound: no such key")),
       Event.PutObject "bucket" "obj-1" 1024 none]
      rfl (GoError.other "AccessDenied: forbidden") rfl).2.2 rfl
  exact ⟨d, h3, h5⟩

/-! ## Claims about `Execute` -/

/-- C6: when the `GetObject` request of an `Execute` call fails, the call returns (whatever the
fuel) a `Latency` whose error list is the client's list followed by the request error, so it is
non-empty and ends in the request error; `FirstByte` and `LastByte` are those of the `Latency`
the client returned; the key is appended to `errKeys`; the events caused are the clock
reading of `time.Now`, the request and one error-level message: no `Read`, no `Close`, no
warning-level message. -/
theorem execute_request_failure (env : Env) (ctx : BenchmarkContext) (fuel : Nat)
    (op : OperationRead) (sampleId : Int) (payloadSize : Nat) (w : Trace)
    (lat0 : Latency) (s : Stream) (e : GoError)
    (hget : ctx.Client.GetObject (w ++ [Event.clock (env.clock w)]) ctx.Path
      (env.generateObjectKey sampleId payloadSize) = (lat0, s, some e)) :
    ∃ (lat : Latency) (op1 : OperationRead) (d : Trace),
      Execute env ctx fuel op sampleId payloadSize w = some (none, lat, op1, w ++ d) ∧
      lat.Errors = lat0.Errors ++ [e] ∧ lat.Errors ≠ [] ∧ lat.Errors.getLast? = some e ∧
      lat.FirstByte = lat0.FirstByte ∧ lat.LastByte = lat0.LastByte ∧
      op1.keys = op.keys ∧
      op1.errKeys = op.errKeys ++ [env.generateObjectKey sampleId payloadSize] ∧
      d = [Event.clock (env.clock w),
           Event.GetObject ctx.Path (env.generateObjectKey sampleId payloadSize) lat0 s (some e),
           Event.ErrorLogger (getFailedMsg (env.generateObjectKey sampleId payloadSize) e)] ∧
      (∀ x ∈ d, isRead x = false ∧ isClose x = false) ∧
      errorLogs d = [getFailedMsg (env.generateObjectKey sampleId payloadSize) e] ∧
      warningLogs d = [] := by
  refine ⟨{ lat0 with Errors := lat0.Errors ++ [e] },
    { op with errKeys := op.errKeys ++ [env.generateObjectKey sampleId payloadSize] },
    _, ?_, ?_, ?_, ?_, ?_, ?_, ?_, ?_, rfl, ?_, ?_, ?_⟩
  · simp [Execute, hget]
  all_goals simp [isRead, isClose, errorLogs, warningLogs]

/-- Witness of C6: a request that times out. -/
theorem execute_request_failure_witness :
    requestFailsClient.GetObject ([] ++ [Event.clock (demoEnv.clock [])]) "bucket"
        (demoEnv.generateObjectKey 2 1024)
      = (Latency.mk 0 0 [], 0, some (GoError.other "timeout")) ∧
    Execute demoEnv (demoCtx requestFailsClient 3) 0 (OperationRead.mk ["obj-2"] []) 2 1024 []
      = some (none, Latency.mk 0 0 [GoError.other "timeout"],
          OperationRead.mk ["obj-2"] ["obj-2"],
          [Event.clock 0,
           Event.GetObject "bucket" "obj-2" (Latency.mk 0 0 []) 0 (some (GoError.other "timeout")),
           Event.ErrorLogger "Failed to get object obj-2: timeout"]) ∧
    ∃ (lat : Latency) (op1 : OperationRead) (d : Trace),
      Execute demoEnv (demoCtx requestFailsClient 3) 0 (OperationRead.mk ["obj-2"] []) 2 1024 []
        = some (none, lat, op1, [] ++ d) ∧ lat.Errors ≠ [] := by
  refine ⟨rfl, rfl, ?_⟩
  obtain ⟨lat, op1, d, h, -, h3, -⟩ :=
    execute_request_failure demoEnv (demoCtx requestFailsClient 3) 0
      (OperationRead.mk ["obj-2"] []) 2 1024 [] (Latency.mk 0 0 []) 0 (GoError.other "timeout") rfl
  exact ⟨lat, op1, d, h, h3⟩

/-- C9 as stated fails: with a payload of `2 ^ 62` bytes, which the allocator refuses, the
request succeeds and the stream is finite (its first read answers end-of-stream), yet
`Execute` performs no `Read` and no `Close`: it ends at `make([]byte, payloadSize)` with the
runtime error, right after the first-byte clock reading. -/
theorem execute_drains_then_closes_counterexample :
    okClient.GetObject ([] ++ [Event.clock (demoEnv.clock [])]) "bucket"
        (demoEnv.generateObjectKey 1 (2 ^ 62))
      = (Latency.mk 0 0 [], 7, none) ∧
    (nthRead (demoCtx okClient 3) 7 (2 ^ 62)
      (drainStart demoEnv (demoCtx okClient 3) 1 (2 ^ 62) []) 0).2 = some GoError.EOF ∧
    Execute demoEnv (demoCtx okClient 3) 5 (OperationRead.mk ["obj-1"] []) 1 (2 ^ 62) []
      = some (some "runtime error: makeslice: len out of range", Latency.mk 2 0 [],
          OperationRead.mk ["obj-1"] [],
          [Event.clock 0,
           Event.GetObject "bucket" "obj-1" (Latency.mk 0 0 []) 7 none,
           Event.clock 2]) ∧
    (∀ x ∈ [Event.clock 0,
            Event.GetObject "bucket" "obj-1" (Latency.mk 0 0 []) 7 none,
            Event.clock 2], isRead x = false ∧ isClose x = false) := by
  refine ⟨rfl, rfl, ?_, by simp [isRead, isClose]⟩
  have hm : demoEnv.makeSliceError (2 ^ 62)
      = some "runtime error: makeslice: len out of range" := by
    simp [demoEnv]
  simp only [Execute, demoCtx, okClient, hm]
  rfl

/-- C9, amended: in an `Execute` call whose request succeeds, whose read buffer of
`payloadSize` bytes can be allocated, and whose stream answers end-of-stream or
an error for the first time at read number `k` (counted from `0`), with fuel for more than `k`
reads: `Execute` returns; it performs exactly the `k + 1` reads up to and including that
one and none after it; a read error is logged once at warning level (end-of-stream is not
logged); then `Close` is called once; the clock is read after `Close` and `LastByte` is that
reading minus the start, whatever the last read and `Close` answered; `FirstByte` is the
reading taken before the first read minus the start; a failed `Close` is logged at error
level; the errors appended to the client's list are the read error (if any) and then the
close error (if any). -/
theorem execute_drains_then_closes (env : Env) (ctx : BenchmarkContext) (fuel : Nat)
    (op : OperationRead) (sampleId : Int) (payloadSize : Nat) (w : Trace)
    (lat0 : Latency) (s : Stream)
    (hget : ctx.Client.GetObject (w ++ [Event.clock (env.clock w)]) ctx.Path
      (env.generateObjectKey sampleId payloadSize) = (lat0, s, none))
    (halloc : env.makeSliceError payloadSize = none)
    (k : Nat) (e : GoError)
    (hok : ∀ j < k,
      (nthRead ctx s payloadSize (drainStart env ctx sampleId payloadSize w) j).2 = none)
    (hend : (nthRead ctx s payloadSize (drainStart env ctx sampleId payloadSize w) k).2 = some e)
    (hfuel : k < fuel) :
    ∃ (reads : Trace) (c : Option GoError) (t1 t2 : Int) (lat : Latency) (op1 : OperationRead),
      Execute env ctx fuel op sampleId payloadSize w
        = some (none, lat, op1,
            w ++ [Event.clock (env.clock w),
                  Event.GetObject ctx.Path (env.generateObjectKey sampleId payloadSize) lat0 s
                    none,
                  Event.clock t1]
              ++ reads
              ++ drainLog env (env.generateObjectKey sampleId payloadSize) payloadSize sampleId
                  (some e)
              ++ [Event.Close s c, Event.clock t2]
              ++ closeLog (env.generateObjectKey sampleId payloadSize) c) ∧
      reads = drainEvents ctx s payloadSize (k + 1) (drainStart env ctx sampleId payloadSize w) ∧
      reads.length = k + 1 ∧
      (∀ x ∈ reads, isRead x = true) ∧
      reads.getLast? = some (Event.Read s payloadSize
        (nthRead ctx s payloadSize (drainStart env ctx sampleId payloadSize w) k).1 (some e)) ∧
      c = ctx.Client.Close (drainStart env ctx sampleId payloadSize w ++ reads
            ++ drainLog env (env.generateObjectKey sampleId payloadSize) payloadSize sampleId
                (some e)) s ∧
      t1 = env.clock (w ++ [Event.clock (env.clock w),
              Event.GetObject ctx.Path (env.generateObjectKey sampleId payloadSize) lat0 s
                none]) ∧
      t2 = env.clock (drainStart env ctx sampleId payloadSize w ++ reads
            ++ drainLog env (env.generateObjectKey sampleId payloadSize) payloadSize sampleId
                (some e) ++ [Event.Close s c]) ∧
      lat.FirstByte = t1 - env.clock w ∧
      lat.LastByte = t2 - env.clock w ∧
      lat.Errors = lat0.Errors ++ readError (some e) ++ c.toList ∧
      (e = GoError.EOF → readError (some e) = [] ∧
        drainLog env (env.generateObjectKey sampleId payloadSize) payloadSize sampleId (some e)
          = []) ∧
      (e ≠ GoError.EOF → readError (some e) = [e] ∧
        drainLog env (env.generateObjectKey sampleId payloadSize) payloadSize sampleId (some e)
          = [Event.WarningLogger
              (readFailedMsg env (env.generateObjectKey sampleId payloadSize) payloadSize
                sampleId e)]) ∧
      (∀ ce, c = some ce → closeLog (env.generateObjectKey sampleId payloadSize) c
          = [Event.ErrorLogger
              (closeFailedMsg (env.generateObjectKey sampleId payloadSize) ce)]) ∧
      (c = none → closeLog (env.generateObjectKey sampleId payloadSize) c = []) := by
  obtain ⟨reads, c, t1, t2, hreads, ht1, hstart, hc, ht2, hexec⟩ :=
    execute_success_spec env ctx fuel op sampleId payloadSize w lat0 s hget halloc k e hok hend
      hfuel
  have hreq : afterRequest env ctx sampleId payloadSize w
      = w ++ [Event.clock (env.clock w),
              Event.GetObject ctx.Path (env.generateObjectKey sampleId payloadSize) lat0 s
                none] := by
    simp [afterRequest, hget]
  have hexec2 := hexec
  rw [hstart] at hexec2
  refine ⟨reads, c, t1, t2, _, _, hexec2, hreads, ?_, ?_, ?_, hc, ?_, ht2, rfl, rfl, rfl,
    ?_, ?_, ?_, ?_⟩
  · rw [hreads, drainEvents_length]
  · rw [hreads]
    exact drainEvents_isRead ctx s payloadSize (k + 1) _
  · rw [hreads, drainEvents_succ_last, hend]
    simp
  · rw [ht1, hreq]
  · rintro rfl
    exact ⟨rfl, rfl⟩
  · intro hne
    cases e with
    | EOF => exact absurd rfl hne
    | other text => exact ⟨rfl, rfl⟩
  · rintro ce rfl
    rfl
  · intro h
    rw [h]
    rfl

/-- Witness of the amended C9: a stream that delivers one chunk and then fails, and whose `Close` fails. -/
theorem execute_drains_then_closes_witness :
    Execute demoEnv (demoCtx brokenStreamClient 3) 5 (OperationRead.mk ["obj-1"] []) 1 1024 []
      = some (none, Latency.mk 2 7 [GoError.other "reset", GoError.other "already closed"],
          OperationRead.mk ["obj-1"] ["obj-1", "obj-1"],
          [Event.clock 0,
           Event.GetObject "bucket" "obj-1" (Latency.mk 0 0 []) 7 none,
           Event.clock 2,
           Event.Read 7 1024 512 none,
           Event.Read 7 1024 3 (some (GoError.other "reset")),
           Event.WarningLogger
             "Error reading object body of object obj-1 (payload: 1 KB, sample: 1): reset",
           Event.Close 7 (some (GoError.other "already closed")),
           Event.clock 7,
           Event.ErrorLogger "Error closing the datastream of object obj-1: already closed"]) ∧
    ∃ (reads : Trace) (lat : Latency),
      reads.length = 2 ∧ (∀ x ∈ reads, isRead x = true) ∧
      lat.Errors = [] ++ readError (some (GoError.other "reset"))
        ++ (brokenStreamClient.Close [] 7).toList := by
  refine ⟨rfl, ?_⟩
  obtain ⟨reads, c, t1, t2, lat, op1, -, -, h3, h4, -, h6, -, -, -, -, h11, -⟩ :=
    execute_drains_then_closes demoEnv (demoCtx brokenStreamClient 3) 5
      (OperationRead.mk ["obj-1"] []) 1 1024 [] (Latency.mk 0 0 []) 7 rfl rfl 1
      (GoError.other "reset")
      (by intro j hj; interval_cases j; rfl) rfl (by decide)
  refine ⟨reads, lat, h3, h4, ?_⟩
  rw [h11, h6]
  rfl

/-- C7 as stated fails: with a client whose successful `GetObject` returns a `Latency` that
already carries an error, the request succeeds, both chunks are read without error up to
end-of-stream, `Close` succeeds and the clock never goes back, yet the `Latency` that
`Execute` returns has a non-empty error list. -/
theorem execute_success_errors_counterexample :
    staleLatencyClient.GetObject ([] ++ [Event.clock (demoEnv.clock [])]) "bucket"
        (demoEnv.generateObjectKey 1 1024)
      = (Latency.mk 0 0 [GoError.other "stale"], 7, none) ∧
    (∀ j < 2, (nthRead (demoCtx staleLatencyClient 3) 7 1024
      (drainStart demoEnv (demoCtx staleLatencyClient 3) 1 1024 []) j).2 = none) ∧
    (nthRead (demoCtx staleLatencyClient 3) 7 1024
      (drainStart demoEnv (demoCtx staleLatencyClient 3) 1 1024 []) 2).2 = some GoError.EOF ∧
    staleLatencyClient.Close
      (drainStart demoEnv (demoCtx staleLatencyClient 3) 1 1024 []
        ++ drainEvents (demoCtx staleLatencyClient 3) 7 1024 3
            (drainStart demoEnv (demoCtx staleLatencyClient 3) 1 1024 [])) 7 = none ∧
    (∀ a b : Trace, demoEnv.clock a ≤ demoEnv.clock (a ++ b)) ∧
    Execute demoEnv (demoCtx staleLatencyClient 3) 5 (OperationRead.mk ["obj-1"] []) 1 1024 []
      = some (none, Latency.mk 2 7 [GoError.other "stale"], OperationRead.mk ["obj-1"] [],
          [Event.clock 0,
           Event.GetObject "bucket" "obj-1" (Latency.mk 0 0 [GoError.other "stale"]) 7 none,
           Event.clock 2,
           Event.Read 7 1024 512 none,
           Event.Read 7 1024 512 none,
           Event.Read 7 1024 0 (some GoError.EOF),
           Event.Close 7 none,
           Event.clock 7]) ∧
    (Latency.mk 2 7 [GoError.other "stale"]).Errors ≠ [] := by
  refine ⟨rfl, ?_, rfl, rfl, ?_, rfl, by decide⟩
  · intro j hj
    interval_cases j <;> rfl
  · intro a b
    simp [demoEnv]

/-- C7, amended: in an `Execute` call whose request succeeds, whose reads take place (the read
buffer was allocated) and answer without error until end-of-stream at read number `k`, and
whose `Close` succeeds, with a clock that never goes back and fuel for more than `k` reads: `Execute` returns a `Latency` with
`LastByte >= FirstByte` whose error list is the error list of the `Latency` that `GetObject`
returned (nothing is appended, so it is empty when the client's list is empty), and the
operation state, `errKeys` included, is unchanged. -/
theorem execute_success_latency (env : Env) (ctx : BenchmarkContext) (fuel : Nat)
    (op : OperationRead) (sampleId : Int) (payloadSize : Nat) (w : Trace)
    (lat0 : Latency) (s : Stream)
    (hget : ctx.Client.GetObject (w ++ [Event.clock (env.clock w)]) ctx.Path
      (env.generateObjectKey sampleId payloadSize) = (lat0, s, none))
    (halloc : env.makeSliceError payloadSize = none)
    (k : Nat)
    (hok : ∀ j < k,
      (nthRead ctx s payloadSize (drainStart env ctx sampleId payloadSize w) j).2 = none)
    (hend : (nthRead ctx s payloadSize (drainStart env ctx sampleId payloadSize w) k).2
      = some GoError.EOF)
    (hclose : ctx.Client.Close
      (drainStart env ctx sampleId payloadSize w
        ++ drainEvents ctx s payloadSize (k + 1) (drainStart env ctx sampleId payloadSize w)) s
      = none)
    (hclock : ∀ a b : Trace, env.clock a ≤ env.clock (a ++ b))
    (hfuel : k < fuel) :
    ∃ (lat : Latency) (w1 : Trace),
      Execute env ctx fuel op sampleId payloadSize w = some (none, lat, op, w1) ∧
      lat.FirstByte ≤ lat.LastByte ∧
      lat.Errors = lat0.Errors ∧
      (lat0.Errors = [] → lat.Errors = []) := by
  obtain ⟨reads, c, t1, t2, hreads, ht1, hstart, hc, ht2, hexec⟩ :=
    execute_success_spec env ctx fuel op sampleId payloadSize w lat0 s hget halloc k
      GoError.EOF hok hend hfuel
  have hc2 : c = none := by
    rw [hc, hreads]
    simpa [drainLog] using hclose
  subst hc2
  have hle : t1 ≤ t2 := by
    rw [ht1, ht2]
    have := hclock (afterRequest env ctx sampleId payloadSize w)
      ([Event.clock (env.clock (afterRequest env ctx sampleId payloadSize w))] ++ reads
        ++ drainLog env (env.generateObjectKey sampleId payloadSize) payloadSize sampleId
            (some GoError.EOF) ++ [Event.Close s none])
    simpa [drainStart, List.append_assoc] using this
  have hexec2 : Execute env ctx fuel op sampleId payloadSize w
      = some (none,
              Latency.mk (t1 - env.clock w) (t2 - env.clock w) lat0.Errors, op,
              drainStart env ctx sampleId payloadSize w ++ reads
                ++ [Event.Close s none, Event.clock t2]) := by
    rw [hexec]
    simp [readError, drainLog, closeLog]
  refine ⟨_, _, hexec2, ?_, rfl, fun h => h⟩
  simpa using hle

/-- Witness of the amended C7: a stream of two chunks read on the empty transcript. -/
theorem execute_success_latency_witness :
    Execute demoEnv (demoCtx twoChunksClient 3) 5 (OperationRead.mk ["obj-1"] []) 1 1024 []
      = some (none, Latency.mk 2 7 [], OperationRead.mk ["obj-1"] [],
          [Event.clock 0,
           Event.GetObject "bucket" "obj-1" (Latency.mk 0 0 []) 7 none,
           Event.clock 2,
           Event.Read 7 1024 512 none,
           Event.Read 7 1024 512 none,
           Event.Read 7 1024 0 (some GoError.EOF),
           Event.Close 7 none,
           Event.clock 7]) ∧
    ∃ (lat : Latency) (w1 : Trace),
      Execute demoEnv (demoCtx twoChunksClient 3) 5 (OperationRead.mk ["obj-1"] []) 1 1024 []
        = some (none, lat, OperationRead.mk ["obj-1"] [], w1) ∧
      lat.FirstByte ≤ lat.LastByte ∧ lat.Errors = [] := by
  refine ⟨rfl, ?_⟩
  obtain ⟨lat, w1, h1, h2, h3, -⟩ :=
    execute_success_latency demoEnv (demoCtx twoChunksClient 3) 5
      (OperationRead.mk ["obj-1"] []) 1 1024 [] (Latency.mk 0 0 []) 7 rfl rfl 2
      (by intro j hj; interval_cases j <;> rfl) rfl rfl
      (by intro a b; simp [demoEnv]) (by decide)
  exact ⟨lat, w1, h1, h2, h3⟩

/-! ## Claims about the whole lifecycle -/

/-- C8: for every operation state and every storage client: an `Execute` call that ends, by
returning its `Latency` or by a failed allocation of its read buffer, leaves `op.keys`
unchanged and only appends copies of the key of its sample to
`op.errKeys`; `EnsureTestdata`, aborting or not, leaves `op.errKeys` unchanged and only
appends to `op.keys`; `CleanupTestdata` returns the operation state it was given. -/
theorem operation_state_frame {τ : Type} (env : Env) (ctx : BenchmarkContext)
    (payloadSize : Nat) (ticker : Ticker τ) (op : OperationRead) (t : τ) (w : Trace) :
    (∀ (fuel : Nat) (sampleId : Int) (p : Option String) (lat : Latency) (op1 : OperationRead)
        (w1 : Trace),
      Execute env ctx fuel op sampleId payloadSize w = some (p, lat, op1, w1) →
        op1.keys = op.keys ∧
        ∃ n : Nat, op1.errKeys
          = op.errKeys ++ List.replicate n (env.generateObjectKey sampleId payloadSize)) ∧
    ((EnsureTestdata env ctx payloadSize ticker op t w).2.1.errKeys = op.errKeys ∧
      ∃ added : List String,
        (EnsureTestdata env ctx payloadSize ticker op t w).2.1.keys = op.keys ++ added) ∧
    (CleanupTestdata ctx ticker op t w).1 = op := by
  refine ⟨?_, ?_, ?_⟩
  · intro fuel sampleId p lat op1 w1 h
    obtain ⟨d, lat0, s, err, -, g2, -, -⟩ := execute_frame _ _ _ _ _ _ _ _ _ _ _ h
    rw [g2]
    exact ⟨rfl, (failureErrors d).length, by simp [List.map_const']⟩
  · obtain ⟨added, d, h1, -⟩ := ensureLoop_frame env ctx payloadSize ticker
      (sampleIds ctx.Samples) op t w
    unfold EnsureTestdata
    rw [h1]
    exact ⟨rfl, added, rfl⟩
  · obtain ⟨d, h1, -, -⟩ := cleanupTestdata_spec ctx ticker op t w
    rw [h1]

/-- Witness of C8: an `Execute` call whose read and close both fail appends the key twice. -/
theorem operation_state_frame_witness :
    Execute demoEnv (demoCtx brokenStreamClient 3) 5 (OperationRead.mk ["obj-1"] ["obj-9"])
        1 1024 []
      = some (none, Latency.mk 2 7 [GoError.other "reset", GoError.other "already closed"],
          OperationRead.mk ["obj-1"] ["obj-9", "obj-1", "obj-1"],
          [Event.clock 0,
           Event.GetObject "bucket" "obj-1" (Latency.mk 0 0 []) 7 none,
           Event.clock 2,
           Event.Read 7 1024 512 none,
           Event.Read 7 1024 3 (some (GoError.other "reset")),
           Event.WarningLogger
             "Error reading object body of object obj-1 (payload: 1 KB, sample: 1): reset",
           Event.Close 7 (some (GoError.other "already closed")),
           Event.clock 7,
           Event.ErrorLogger "Error closing the datastream of object obj-1: already closed"]) ∧
    ((OperationRead.mk ["obj-1"] ["obj-9", "obj-1", "obj-1"]).keys
        = (OperationRead.mk ["obj-1"] ["obj-9"]).keys ∧
      ∃ n : Nat, (OperationRead.mk ["obj-1"] ["obj-9", "obj-1", "obj-1"]).errKeys
        = (OperationRead.mk ["obj-1"] ["obj-9"]).errKeys
          ++ List.replicate n (demoEnv.generateObjectKey 1 1024)) :=
  ⟨rfl, (operation_state_frame demoEnv (demoCtx brokenStreamClient 3) 1024 NilTicker
    (OperationRead.mk ["obj-1"] ["obj-9"]) () []).1 5 1 _ _ _ _ rfl⟩

/-- C2: for a fresh `OperationRead` and a key generator that is injective on the sample
indices `1 .. n`: after an `EnsureTestdata` that does not abort and in which no existence
check answered "exists" (so every check reported not-found and every write succeeded),
followed by a sequential run of one `Execute` per sample index in any order, the keys that
`CleanupTestdata` passes to `DeleteObject` are, in ascending sample order, the keys of the
samples whose `Execute` met no failure; the key of a sample whose `Execute` met a failure is
in `errKeys` and is not deleted; and the errors that each `Execute` appended to the client's
`Latency` are exactly the failures it met (failed request, failed read before end-of-stream,
failed close). -/
theorem errored_samples_survive_cleanup {τ τ2 : Type} (env : Env) (ctx : BenchmarkContext)
    (payloadSize : Nat) (ticker : Ticker τ) (t : τ) (w : Trace) (fuel : Nat) (ids : List Int)
    (ticker2 : Ticker τ2) (t2 : τ2)
    (hinj : ∀ i ∈ sampleIds ctx.Samples, ∀ j ∈ sampleIds ctx.Samples,
      env.generateObjectKey i payloadSize = env.generateObjectKey j payloadSize → i = j)
    (op1 : OperationRead) (t1 : τ) (w1 : Trace)
    (hprov : EnsureTestdata env ctx payloadSize ticker (OperationRead.mk [] []) t w
      = (none, op1, t1, w1))
    (hnf : ∀ key : String, Event.HeadObject ctx.Path key none ∉ w1.drop w.length)
    (hperm : ids.Perm (sampleIds ctx.Samples))
    (runs : List ExecRun) (op2 : OperationRead) (w2 : Trace)
    (hexec : ExecuteAll env ctx fuel payloadSize ids op1 w1 = some (runs, op2, w2)) :
    ∃ d : Trace,
      (CleanupTestdata ctx ticker2 op2 t2 w2).2.2 = w2 ++ d ∧
      (∀ x ∈ d, isDeleteOn ctx.Path x = true) ∧
      deletedKeys d = ((sampleIds ctx.Samples).filter (fun i => decide (i ∉ failedIds runs))).map
        (fun i => env.generateObjectKey i payloadSize) ∧
      runs.map ExecRun.sampleId = ids ∧
      (∀ r ∈ runs, failureErrors r.events ≠ [] →
        env.generateObjectKey r.sampleId payloadSize ∈ op2.errKeys ∧
        env.generateObjectKey r.sampleId payloadSize ∉ deletedKeys d) ∧
      (∀ r ∈ runs, failureErrors r.events = [] →
        env.generateObjectKey r.sampleId payloadSize ∈ deletedKeys d) ∧
      (∀ r ∈ runs, ∃ (lat0 : Latency) (s : Stream) (err : Option GoError),
        Event.GetObject ctx.Path (env.generateObjectKey r.sampleId payloadSize) lat0 s err
          ∈ r.events ∧
        r.latency.Errors = lat0.Errors ++ failureErrors r.events) := by
  -- provisioning: every sample was written, in order
  obtain ⟨rs, a1, -, a3, a4, a5, -⟩ :=
    ensureLoop_ok env ctx payloadSize ticker _ _ _ _ _ _ _ hprov
  have hsome : ∀ p ∈ (sampleIds ctx.Samples).zip rs, p.2.isSome = true := by
    intro p hp
    cases hp2 : p.2 with
    | some e => rfl
    | none =>
      exfalso
      apply hnf (env.generateObjectKey p.1 payloadSize)
      rw [a3, List.drop_left, List.mem_flatMap]
      exact ⟨p, hp, by simp [provisionEvents, hp2]⟩
  have hkeys : op1.keys
      = (sampleIds ctx.Samples).map (fun i => env.generateObjectKey i payloadSize) := by
    have h1 : op1.keys = ((sampleIds ctx.Samples).zip rs).map
        (fun p => env.generateObjectKey p.1 payloadSize) := by
      rw [a4, List.filter_eq_self.mpr hsome]
      rfl
    have h2 : ((sampleIds ctx.Samples).zip rs).map
        (fun p => env.generateObjectKey p.1 payloadSize)
        = (((sampleIds ctx.Samples).zip rs).map Prod.fst).map
            (fun i => env.generateObjectKey i payloadSize) := by
      rw [List.map_map]
      rfl
    rw [h1, h2, List.map_fst_zip _ _ (le_of_eq a1.symm)]
  have herr1 : op1.errKeys = [] := a5
  -- execution
  obtain ⟨b1, b2, b3, b4⟩ := executeAll_spec env ctx fuel payloadSize ids op1 w1 runs op2 w2 hexec
  have herr2 : op2.errKeys = runErrKeys env payloadSize runs := by
    rw [b3, herr1]
    rfl
  have hidmem : ∀ r ∈ runs, r.sampleId ∈ sampleIds ctx.Samples := by
    intro r hr
    rw [← hperm.mem_iff, ← b1]
    exact List.mem_map_of_mem _ hr
  have hnodup : (runs.map ExecRun.sampleId).Nodup := by
    rw [b1, hperm.nodup_iff]
    exact sampleIds_nodup _
  have hiff : ∀ i ∈ sampleIds ctx.Samples,
      (env.generateObjectKey i payloadSize ∈ op2.errKeys ↔ i ∈ failedIds runs) := by
    intro i hi
    rw [herr2, mem_runErrKeys, mem_failedIds]
    constructor
    · rintro ⟨r, hr, hne, hk⟩
      exact ⟨r, hr, hne, hinj _ (hidmem r hr) _ hi hk⟩
    · rintro ⟨r, hr, hne, hk⟩
      exact ⟨r, hr, hne, by rw [hk]⟩
  -- cleanup
  obtain ⟨d, c1, c2, c3⟩ := cleanupTestdata_spec ctx ticker2 op2 t2 w2
  have hdel : deletedKeys d
      = ((sampleIds ctx.Samples).filter (fun i => decide (i ∉ failedIds runs))).map
          (fun i => env.generateObjectKey i payloadSize) := by
    rw [c2, b2, hkeys, List.filter_map]
    congr 1
    apply List.filter_congr
    intro i hi
    by_cases hf : i ∈ failedIds runs
    · have := (contains_eq_true_iff _ _).mpr ((hiff i hi).mpr hf)
      simp [hf, this]
    · have hc : contains op2.errKeys (env.generateObjectKey i payloadSize) = false := by
        cases hcn : contains op2.errKeys (env.generateObjectKey i payloadSize)
        · rfl
        · exact absurd ((hiff i hi).mp ((contains_eq_true_iff _ _).mp hcn)) hf
      simp [hf, hc]
  have hnotdel : ∀ i ∈ sampleIds ctx.Samples, i ∈ failedIds runs →
      env.generateObjectKey i payloadSize ∉ deletedKeys d := by
    intro i hi hf hmem
    rw [hdel, List.mem_map] at hmem
    obtain ⟨j, hj, hjk⟩ := hmem
    rw [List.mem_filter] at hj
    have hji : j = i := hinj j hj.1 i hi hjk
    subst hji
    simp [hf] at hj
  refine ⟨d, by rw [c1], c3, hdel, b1, ?_, ?_, b4⟩
  · intro r hr hne
    have hf : r.sampleId ∈ failedIds runs := (mem_failedIds _ _).mpr ⟨r, hr, hne, rfl⟩
    exact ⟨(hiff _ (hidmem r hr)).mpr hf, hnotdel _ (hidmem r hr) hf⟩
  · intro r hr hnil
    rw [hdel, List.mem_map]
    refine ⟨r.sampleId, ?_, rfl⟩
    rw [List.mem_filter]
    refine ⟨hidmem r hr, ?_⟩
    have hnf2 : r.sampleId ∉ failedIds runs := by
      intro hf
      obtain ⟨q, hq, hne, hqi⟩ := (mem_failedIds _ _).mp hf
      have : q = r := List.inj_on_of_nodup_map hnodup hq hr hqi
      subst this
      exact hne hnil
    simp [hnf2]

/-- Witness of C2: three samples provisioned, executed in the order 3, 1, 2; the request of
sample 2 fails, so cleanup deletes the objects of samples 1 and 3 only. -/
theorem errored_samples_survive_cleanup_witness :
    EnsureTestdata demoEnv (demoCtx secondGetFailsClient 3) 1024
        (Ticker.mk (fun (s n : Int) => s + n)) (OperationRead.mk [] []) 0 []
      = (none, OperationRead.mk ["obj-1", "obj-2", "obj-3"] [], 3,
          [Event.HeadObject "bucket" "obj-1" (some (GoError.other "NotFound: no such key")),
           Event.PutObject "bucket" "obj-1" 1024 none,
           Event.HeadObject "bucket" "obj-2" (some (GoError.other "NotFound: no such key")),
           Event.PutObject "bucket" "obj-2" 1024 none,
           Event.HeadObject "bucket" "obj-3" (some (GoError.other "NotFound: no such key")),
           Event.PutObject "bucket" "obj-3" 1024 none]) ∧
    [3, 1, 2].Perm (sampleIds 3) ∧
    ∃ d : Trace, deletedKeys d = ["obj-1", "obj-3"] ∧
      (∀ x ∈ d, isDeleteOn "bucket" x = true) := by
  refine ⟨rfl, by decide, ?_⟩
  obtain ⟨d, -, h2, h3, -⟩ :=
    errored_samples_survive_cleanup demoEnv (demoCtx secondGetFailsClient 3) 1024
      (Ticker.mk (fun (s n : Int) => s + n)) 0 [] 5 [3, 1, 2] NilTicker ()
      (by decide)
      (OperationRead.mk ["obj-1", "obj-2", "obj-3"] []) 3
      [Event.HeadObject "bucket" "obj-1" (some (GoError.other "NotFound: no such key")),
       Event.PutObject "bucket" "obj-1" 1024 none,
       Event.HeadObject "bucket" "obj-2" (some (GoError.other "NotFound: no such key")),
       Event.PutObject "bucket" "obj-2" 1024 none,
       Event.HeadObject "bucket" "obj-3" (some (GoError.other "NotFound: no such key")),
       Event.PutObject "bucket" "obj-3" 1024 none]
      rfl
      (by intro key; simp)
      (by decide)
      [ExecRun.mk 3
         [Event.clock 6, Event.GetObject "bucket" "obj-3" (Latency.mk 0 0 []) 7 none,
          Event.clock 8, Event.Read 7 1024 0 (some GoError.EOF), Event.Close 7 none,
          Event.clock 11]
         (Latency.mk 2 5 []),
       ExecRun.mk 1
         [Event.clock 12, Event.GetObject "bucket" "obj-1" (Latency.mk 0 0 []) 7 none,
          Event.clock 14, Event.Read 7 1024 0 (some GoError.EOF), Event.Close 7 none,
          Event.clock 17]
         (Latency.mk 2 5 []),
       ExecRun.mk 2
         [Event.clock 18,
          Event.GetObject "bucket" "obj-2" (Latency.mk 0 0 []) 0 (some (GoError.other "timeout")),
          Event.ErrorLogger "Failed to get object obj-2: timeout"]
         (Latency.mk 0 0 [GoError.other "timeout"])]
      (OperationRead.mk ["obj-1", "obj-2", "obj-3"] ["obj-2"]) _ rfl
  exact ⟨d, h3.trans (by decide), h2⟩

end sbmark






